import Mathlib

/-!
Verification of the publsp liquidity-marketplace core against its
natural-language specification.

The Python sources are shallowly embedded: pure functions become Lean
functions, Python `int` becomes `ℤ`, and Python `float` arithmetic is
modelled as exact rational arithmetic (`PyRat`, an unnormalised fraction
type whose operations reduce inside the kernel; the concrete literals
appearing in the claims are far from any binary-float rounding boundary,
so the exact-rational model and IEEE-754 doubles agree on them).  Python
`round` is round-half-to-even (`pyRound`), Python `int()` truncation is
`pyTrunc`.  Fallible paths are modelled with `Option`.
-/

/-- Exact rational number as an unnormalised fraction.  Models Python
float/decimal arithmetic in the sources.  All constructions used below
keep `den` positive. -/
structure PyRat where
  num : ℤ
  den : ℤ
  deriving Repr, DecidableEq

instance : IntCast PyRat := ⟨fun n => ⟨n, 1⟩⟩

instance : NatCast PyRat := ⟨fun n => ⟨n, 1⟩⟩

instance (n : Nat) : OfNat PyRat n := ⟨⟨n, 1⟩⟩

/-- Decimal literals such as `10.5` denote exact fractions (m / 10^e). -/
instance : OfScientific PyRat :=
  ⟨fun m b e => if b then ⟨m, (10 : ℤ) ^ e⟩ else ⟨(m : ℤ) * (10 : ℤ) ^ e, 1⟩⟩

instance : Add PyRat :=
  ⟨fun a b => ⟨a.num * b.den + b.num * a.den, a.den * b.den⟩⟩

instance : Sub PyRat :=
  ⟨fun a b => ⟨a.num * b.den - b.num * a.den, a.den * b.den⟩⟩

instance : Mul PyRat :=
  ⟨fun a b => ⟨a.num * b.num, a.den * b.den⟩⟩

instance : Div PyRat :=
  ⟨fun a b => ⟨a.num * b.den, a.den * b.num⟩⟩

instance : Neg PyRat := ⟨fun a => ⟨-a.num, a.den⟩⟩

/-- Numerator and (positive) denominator after normalising the sign of the
denominator. -/
def PyRat.signNorm (q : PyRat) : ℤ × ℤ :=
  if q.den < 0 then (-q.num, -q.den) else (q.num, q.den)

/-- Python `round` on an exact rational value: round half to even
(round half to even), the behaviour of the CPython builtin `round`. -/
def pyRound (q : PyRat) : ℤ :=
  let p := q.signNorm
  let f : ℤ := Int.fdiv p.1 p.2
  let r2 : ℤ := 2 * (p.1 - f * p.2)
  if r2 < p.2 then f
  else if p.2 < r2 then f + 1
  else if f % 2 = 0 then f else f + 1

/-- Python `int()` applied to a real value truncates toward zero. -/
def pyTrunc (q : PyRat) : ℤ :=
  let p := q.signNorm
  Int.tdiv p.1 p.2

/-- Mathematical value of a `PyRat`, for relating the embedding to ℚ. -/
def PyRat.toRat (q : PyRat) : ℚ := (q.num : ℚ) / (q.den : ℚ)


/-! ## Data model: `Ad` (publsp/blip51/info.py) and `Order`
(publsp/blip51/order.py) -/

/-- Embedding of `publsp.blip51.info.Ad`: the published offer.  Field names
follow the source.  `status` is a plain string in the source
(`Optional[str]`), integers are Python ints. -/
structure Ad where
  d : String
  lsp_pubkey : String
  status : String
  min_required_channel_confirmations : ℤ
  min_funding_confirms_within_blocks : ℤ
  supports_zero_channel_reserve : Bool
  max_channel_expiry_blocks : ℤ
  min_initial_client_balance_sat : ℤ
  max_initial_client_balance_sat : ℤ
  min_initial_lsp_balance_sat : ℤ
  max_initial_lsp_balance_sat : ℤ
  min_channel_balance_sat : ℤ
  max_channel_balance_sat : ℤ
  fixed_cost_sats : ℤ
  variable_cost_ppm : ℤ
  max_promised_fee_rate : ℤ
  max_promised_base_fee : ℤ
  deriving Repr, DecidableEq

/-- Embedding of `publsp.blip51.order.Order` (the customer request).
`token` and `refund_onchain_address` are `Optional[str]` in the source. -/
structure Order where
  d : String
  target_pubkey_uri : String
  lsp_balance_sat : ℤ
  client_balance_sat : ℤ
  required_channel_confirmations : ℤ
  funding_confirms_within_blocks : ℤ
  channel_expiry_blocks : ℤ
  token : Option String
  refund_onchain_address : Option String
  announce_channel : Bool
  deriving Repr, DecidableEq

/-- The `Order.total_capacity` property from the source. -/
def Order.total_capacity (o : Order) : ℤ :=
  o.lsp_balance_sat + o.client_balance_sat

/-- Embedding of `publsp.blip51.order.OrderErrorCode`. -/
inductive OrderErrorCode where
  | connection_error
  | invalid_params
  | client_rejected
  | option_mismatch
  deriving Repr, DecidableEq

/-- Numeric values of `OrderErrorCode` in the source (an `IntEnum`). -/
def OrderErrorCode.value : OrderErrorCode → ℤ
  | .connection_error => 0
  | .invalid_params => -32602
  | .client_rejected => 1
  | .option_mismatch => 100

/-- Embedding of `publsp.blip51.order.ValidatedOrder`. -/
structure ValidatedOrder where
  is_valid : Bool
  error_code : Option OrderErrorCode := none
  error_message : Option String := none
  deriving Repr, DecidableEq

/-- Embedding of `Order.validate_order` (publsp/blip51/order.py, lines
82-129): the chain of range checks against the ad, in source order, the
first failing check producing the `option_mismatch` error. -/
def Order.validate_order (o : Order) (ad : Ad) : ValidatedOrder :=
  if ¬ (o.lsp_balance_sat ≥ ad.min_initial_lsp_balance_sat) then
    { is_valid := false, error_code := some .option_mismatch,
      error_message := some "lsp_balance_sat < min_initial_lsp_balance_sat" }
  else if ¬ (o.lsp_balance_sat ≤ ad.max_initial_lsp_balance_sat) then
    { is_valid := false, error_code := some .option_mismatch,
      error_message := some "lsp_balance_sat > max_initial_lsp_balance_sat" }
  else if ¬ (o.client_balance_sat ≥ ad.min_initial_client_balance_sat) then
    { is_valid := false, error_code := some .option_mismatch,
      error_message := some "client_balance_sat < min_initial_client_balance_sat" }
  else if ¬ (o.client_balance_sat ≤ ad.max_initial_client_balance_sat) then
    { is_valid := false, error_code := some .option_mismatch,
      error_message := some "client_balance_sat > max_initial_client_balance_sat" }
  else if ¬ (o.client_balance_sat + o.lsp_balance_sat ≥ ad.min_channel_balance_sat) then
    { is_valid := false, error_code := some .option_mismatch,
      error_message := some "client_balance_sat + lsp_balance_sat < min_channel_balance_sat" }
  else if ¬ (o.client_balance_sat + o.lsp_balance_sat ≤ ad.max_channel_balance_sat) then
    { is_valid := false, error_code := some .option_mismatch,
      error_message := some "client_balance_sat + lsp_balance_sat > max_channel_balance_sat" }
  else if ¬ (o.required_channel_confirmations ≥ ad.min_required_channel_confirmations) then
    { is_valid := false, error_code := some .option_mismatch,
      error_message := some "required_channel_confirmations < min_required_channel_confirmations" }
  else if ¬ (o.funding_confirms_within_blocks ≥ ad.min_funding_confirms_within_blocks) then
    { is_valid := false, error_code := some .option_mismatch,
      error_message := some "funding_confirms_within_blocks < min_funding_confirms_within_blocks" }
  else if ¬ (o.channel_expiry_blocks ≤ ad.max_channel_expiry_blocks) then
    { is_valid := false, error_code := some .option_mismatch,
      error_message := some "channel_expiry_blocks > max_channel_expiry_blocks" }
  else
    { is_valid := true }

/-! ## Pricing (publsp/blip51/utils.py and OrderHandler.get_order_costs) -/

/-- Constant `YEARLY_MINED_BLOCKS = int(24*60/10*365)` from publsp/blip51/utils.py. -/
def YEARLY_MINED_BLOCKS : ℤ := 52560

/-- Embedding of `calculate_lease_cost` as it stands in
publsp/blip51/utils.py (four parameters, prorating the yearly price by
`channel_expiry_blocks / YEARLY_MINED_BLOCKS`).  Note that this signature
does NOT accept the `max_channel_expiry_blocks` keyword argument that
`OrderHandler.get_order_costs` passes, so calling the handler against this
variant raises `TypeError` in Python. -/
def calculate_lease_cost (fixed_cost variable_cost_ppm capacity channel_expiry_blocks : ℤ) : ℤ :=
  let capacity_ppm : PyRat :=
    (fixed_cost : PyRat) + (variable_cost_ppm : PyRat) * (0.000001 : PyRat) * (capacity : PyRat)
  let prorated_period : PyRat := (channel_expiry_blocks : PyRat) / (YEARLY_MINED_BLOCKS : PyRat)
  pyRound (capacity_ppm * prorated_period)

/-- Modelled from the spec: the five-parameter `calculate_lease_cost`
variant that `OrderHandler.get_order_costs` actually invokes (it passes
`max_channel_expiry_blocks=ad.max_channel_expiry_blocks`) is not present
under src/ — the four-parameter variant in publsp/blip51/utils.py does not
accept that keyword.  Following the spec, section 4.D:
`total_fee = fixed_cost + round(variable_ppm * 1e-6 * capacity * expiry/max_expiry)`. -/
def calculate_lease_cost_spec (fixed_cost variable_cost_ppm capacity channel_expiry_blocks
    max_channel_expiry_blocks : ℤ) : ℤ :=
  fixed_cost +
    pyRound ((variable_cost_ppm : PyRat) * (0.000001 : PyRat) * (capacity : PyRat) *
      ((channel_expiry_blocks : PyRat) / (max_channel_expiry_blocks : PyRat)))

/-- Result of `OrderHandler.get_order_costs`. -/
structure OrderCosts where
  total_fee : ℤ
  total_cost : ℤ
  deriving Repr, DecidableEq

/-- Embedding of `OrderHandler.get_order_costs` (publsp/marketplace/lsp.py,
lines 387-397), with the lease cost computed by the spec-modelled
five-parameter `calculate_lease_cost_spec` (see its doc). -/
def get_order_costs (ad : Ad) (o : Order) : OrderCosts :=
  let total_fee := calculate_lease_cost_spec ad.fixed_cost_sats ad.variable_cost_ppm
    o.total_capacity o.channel_expiry_blocks ad.max_channel_expiry_blocks
  { total_fee := total_fee, total_cost := total_fee + o.client_balance_sat }

/-! ## Invoice and channel states (publsp/blip51/payment.py,
publsp/ln/requesthandlers.py) -/

/-- Embedding of `HodlInvoiceState` (publsp/blip51/payment.py). -/
inductive HodlInvoiceState where
  | EXPECT_PAYMENT
  | HOLD
  | PAID
  | REFUNDED
  | UNKNOWN
  deriving Repr, DecidableEq

/-- Embedding of `ChannelState` (publsp/ln/requesthandlers.py). -/
inductive ChannelState where
  | PENDING
  | OPEN
  | CLOSED
  | UNKNOWN
  deriving Repr, DecidableEq

/-- One update yielded by the node backend channel-open stream
(`ChannelOpenResponse` fields read by the orchestrator). -/
structure ChannelOpenUpdate where
  channel_state : ChannelState
  txid_hex : String
  output_index : ℤ
  deriving Repr, DecidableEq

/-! ## Peer connection (LndBackend.connect_peer, publsp/ln/lnd.py
lines 550-601) -/

/-- Request body built by `connect_peer`: pubkey/host from splitting the
URI on the at-sign, `perm` from the `retry_connect` parameter and
`timeout` from the `timeout` parameter.  In the source the host component
is `uri_components[1]`, which presupposes the at-sign is present; `headD`
models the defined case. -/
structure ConnectPeerRequest where
  pubkey : String
  host : String
  perm : Bool
  timeout : ℤ
  deriving Repr, DecidableEq

/-- Embedding of the request construction in `connect_peer`.  The source
signature is `connect_peer(pubkey_uri, timeout=15, retry_connect=True)`
and the call site in `verify_order_and_connection` passes only
`pubkey_uri`, so both defaults apply there. -/
def connect_peer_request (pubkey_uri : String) (timeout : ℤ) (retry_connect : Bool) :
    ConnectPeerRequest :=
  let uri_components := pubkey_uri.splitOn "@"
  { pubkey := uri_components.headD "",
    host := (uri_components.drop 1).headD "",
    perm := retry_connect,
    timeout := timeout }

/-- The defaults of `connect_peer` as declared in the source. -/
def connect_peer_default_timeout : ℤ := 15

/-- Default of the `retry_connect` parameter of `connect_peer`, forwarded
to the request field `perm`. -/
def connect_peer_default_retry : Bool := true

/-- Embedding of `ConnectPeerResponse` (publsp/ln/requesthandlers.py). -/
structure ConnectPeerResponse where
  connected : Bool
  error_message : Option String := none
  deriving Repr, DecidableEq

/-- Outcome of the HTTP POST to /v1/peers as seen by `connect_peer`:
an exception, an error response carrying the `message` field of the JSON
body, or success. -/
inductive HttpResult where
  | exn
  | errorResp (message : String)
  | ok
  deriving Repr, DecidableEq

/-- Substring test, models the Python `in` operator on strings. -/
def strContains (hay needle : String) : Bool :=
  (List.range (hay.length + 1)).any fun i => needle.toList.isPrefixOf (hay.toList.drop i)

/-- Embedding of the response classification in `connect_peer`
(publsp/ln/lnd.py lines 568-601): exception and error bodies map to
`connected=False` except when the body message contains
"already connected to peer"; the timeout message in the source is a plain
(non-f) string literal, so it contains the braces verbatim. -/
def connect_peer_classify (pubkey_uri : String) : HttpResult → ConnectPeerResponse
  | .exn =>
    { connected := false,
      error_message := some ("could not connect to peer " ++ pubkey_uri) }
  | .ok => { connected := true, error_message := none }
  | .errorResp msg =>
    if strContains msg "already connected to peer" then
      { connected := true, error_message := some msg }
    else if strContains msg "timeout" then
      { connected := false, error_message := some "connection try to \x7bpubkey_uri\x7d timed out" }
    else if strContains msg "EOF" then
      { connected := false, error_message := some "pubkey uri error or node does not exist" }
    else if msg ≠ "" then
      { connected := false, error_message := some msg }
    else
      { connected := false, error_message := some "unknown error occurred" }

/-! ## UTXO model (publsp/ln/base.py, publsp/ln/requesthandlers.py,
publsp/ln/utils.py) -/

/-- Embedding of `publsp.ln.base.Utxo`, restricted to the fields the
marketplace logic reads. -/
structure Utxo where
  address_type : String
  amount_sat : ℤ
  confirmations : ℤ
  deriving Repr, DecidableEq

/-- The `Utxo.spend_cost_vb` property (publsp/ln/base.py lines 31-39). -/
def Utxo.spend_cost_vb (u : Utxo) : PyRat :=
  if u.address_type = "WITNESS_PUBKEY_HASH" then 68
  else if u.address_type = "NESTED_PUBKEY_HASH" then 68
  else if u.address_type = "TAPROOT_PUBKEY" then 57.5
  else 0

/-- Python `sum` over a list of rationals (left fold from 0). -/
def sumPyRat (l : List PyRat) : PyRat := l.foldl (· + ·) 0

/-- Embedding of `spend_all_cost` (publsp/ln/utils.py): transaction header
10.5 vB, 31 vB per output, plus the spend cost of each input, times the chain
fee rate, rounded. -/
def spend_all_cost (inputs : List Utxo) (chain_fee_sat_vb : PyRat) (num_outputs : ℤ) : ℤ :=
  let header : PyRat := 10.5
  let output_cost : PyRat := 31 * (num_outputs : PyRat)
  let sum_utxos_cost : PyRat := sumPyRat (inputs.map Utxo.spend_cost_vb)
  pyRound ((header + output_cost + sum_utxos_cost) * chain_fee_sat_vb)

/-- Property `GetUtxosResponse.spendable_amount` (publsp/ln/requesthandlers.py
lines 102-108): the sum of amounts over UTXOs with at least 3
confirmations. -/
def spendable_amount (utxos : List Utxo) : ℤ :=
  (utxos.filter (fun u => u.confirmations ≥ 3)).foldl (fun acc u => acc + u.amount_sat) 0

/-- Property `GetUtxosResponse.num_utxos`: the number of all UTXOs in the
response, confirmed or not. -/
def num_utxos (utxos : List Utxo) : ℤ := utxos.length

/-! ## LSP order verification and order task
(OrderHandler, publsp/marketplace/lsp.py) -/

/-- Embedding of `OrderErrorResponse` (publsp/blip51/order.py). -/
structure OrderErrorResponse where
  code : OrderErrorCode
  error_message : Option String
  deriving Repr, DecidableEq

/-- The generic solvency-failure message sent to the buyer
(publsp/marketplace/lsp.py line 350). -/
def buyer_msg : String :=
  "LSP could not successfully fill order at this moment, please try again later"

/-- Outcome of `OrderHandler.verify_order_and_connection`: the coroutine
returns `None` (proceed), returns an `OrderErrorResponse`, or raises
`AttributeError` — the connection-failure branch interpolates
`order.pubkey_uri` into its f-string, and `Order` has no such attribute
(only `target_pubkey_uri` and the `pubkey` property), so constructing the
connection error response crashes in Python. -/
inductive VerifyOutcome where
  | ok
  | err (resp : OrderErrorResponse)
  | attrError
  deriving Repr, DecidableEq

/-- Inputs consumed by one LSP order task: the ad the order references,
the order, the node-backend results (UTXO fetch, required reserve, chain
fee rate, peer-connect HTTP outcome) and the two event streams (invoice
states, channel-open updates). -/
structure OrderEnv where
  ad : Ad
  order : Order
  utxoFetch : Option (List Utxo)
  required_reserve : ℤ
  sat_per_vb : PyRat
  connectResult : HttpResult
  invoice_states : List HodlInvoiceState
  channel_updates : List ChannelOpenUpdate

/-- Embedding of `OrderHandler.verify_order_and_connection`
(publsp/marketplace/lsp.py lines 332-385): validate the order, check the
UTXO set can cover the total capacity (the inline cost model assumes every
input is P2WPKH: `(10.5 + 2*31 + 68*num_utxos) * sat_per_vb`), then try
the peer connection.  `utxoFetch = none` models the
`utxos.error_message` branch. -/
def verify_order_and_connection (env : OrderEnv) : VerifyOutcome :=
  let checked := env.order.validate_order env.ad
  if checked.is_valid = false then
    .err { code := checked.error_code.getD .option_mismatch,
           error_message := checked.error_message }
  else
    match env.utxoFetch with
    | none => .err { code := .invalid_params, error_message := some buyer_msg }
    | some utxos =>
      let all_utxos_spend_cost : PyRat :=
        ((10.5 : PyRat) + 2 * 31 + 68 * (num_utxos utxos : PyRat)) * env.sat_per_vb
      let can_utxo_set_fill_order :=
        pyRound ((spendable_amount utxos : PyRat) - (env.required_reserve : PyRat)
          - all_utxos_spend_cost) < env.order.total_capacity
      if can_utxo_set_fill_order then
        .err { code := .invalid_params, error_message := some buyer_msg }
      else
        let peer_connection := connect_peer_classify env.order.target_pubkey_uri env.connectResult
        if peer_connection.connected = false then
          .attrError
        else
          .ok

/-! ## Customer response validation (publsp/marketplace/customer.py) -/

/-- What `lndecode` recovers from a BOLT-11 invoice, restricted to the two
fields `is_order_resp_valid` reads: the receiver public key recovered from
the signature and the invoice amount (already converted to sats,
modelling `int(float(decoded.amount)*1e8)`). -/
structure DecodedInvoice where
  destPubkey : String
  amountSat : ℤ
  deriving Repr, DecidableEq

/-- Embedding of `Bolt11` (publsp/blip51/payment.py) as read by the
customer validator.  The invoice string is abstracted by its decoded
content: decoding the BOLT-11 the LSP node issued recovers the pubkey of that node
public key and the requested amount. -/
structure Bolt11 where
  state : HodlInvoiceState
  fee_total_sat : ℤ
  order_total_sat : ℤ
  invoice : DecodedInvoice
  deriving Repr, DecidableEq

/-- Embedding of the economic content of `OrderHandler._prepare_order`
(publsp/marketplace/lsp.py lines 399-415): price the order with
`get_order_costs`, create a hodl invoice for `total_cost` on the LSP node
(so the decoded invoice carries the LSP pubkey and that amount), and fill
the Bolt11 of the response with `fee_total_sat = total_fee` and
`order_total_sat = total_cost`. -/
def prepare_order_bolt11 (ad : Ad) (o : Order) : Bolt11 :=
  let costs := get_order_costs ad o
  { state := .EXPECT_PAYMENT,
    fee_total_sat := costs.total_fee,
    order_total_sat := costs.total_cost,
    invoice := { destPubkey := ad.lsp_pubkey, amountSat := costs.total_cost } }

/-- Embedding of `ValidatedOrderResponse` (publsp/blip51/order.py). -/
structure ValidatedOrderResponse where
  is_valid : Bool
  error_message : Option String := none
  deriving Repr, DecidableEq

/-- Embedding of `OrderResponseHandler.is_order_resp_valid`
(publsp/marketplace/customer.py lines 150-213).  `selected_ad` is the
offer the customer ordered against; `opts_lsp`/`opts_client` are the
requested balances held in `self.opts`.  The expected fee is
`int(fixed_cost_sats + variable_cost_ppm*1e-6*requested_capacity)` — no
expiry proration.  Error message texts follow the source (the source
builds some of them with runtime values; the validity flag, which is what
the claims consult, is unaffected). -/
def is_order_resp_valid (selected_ad : Ad) (opts_lsp opts_client : ℤ) (bolt11 : Bolt11) :
    ValidatedOrderResponse :=
  let receiver_pubkey := bolt11.invoice.destPubkey
  let invoice_order_total_sat := bolt11.invoice.amountSat
  let requested_capacity := opts_lsp + opts_client
  let expected_fee_total := pyTrunc ((selected_ad.fixed_cost_sats : PyRat) +
    (selected_ad.variable_cost_ppm : PyRat) * (0.000001 : PyRat) * (requested_capacity : PyRat))
  let expected_total_cost := expected_fee_total + opts_client
  if selected_ad.lsp_pubkey ≠ receiver_pubkey then
    { is_valid := false, error_message := some "invoice does not originate from LSP" }
  else if bolt11.order_total_sat ≠ invoice_order_total_sat then
    { is_valid := false,
      error_message := some "order response order total not consistent with the decoded bolt11 invoice amount" }
  else if expected_fee_total ≠ bolt11.fee_total_sat then
    { is_valid := false,
      error_message := some "expected fee total differs from the order response" }
  else if expected_total_cost ≠ bolt11.order_total_sat then
    { is_valid := false,
      error_message := some "expected total cost differs from the order response" }
  else if expected_total_cost ≠ invoice_order_total_sat then
    { is_valid := false,
      error_message := some "expected total cost differs from the bolt11 invoice" }
  else
    { is_valid := true }

/-! ## Order task trace (OrderHandler listeners,
publsp/marketplace/lsp.py lines 417-576) -/

/-- Externally visible actions of one LSP order task, in the order the
task performs them. -/
inductive TaskEvent where
  | dmOrderError
  | invoiceCreated
  | dmOrderResponse
  | dmChannelUpdate
  | adPublished
  | settleIssued
  | dmSettled
  | leaseWritten
  | cancelIssued
  deriving Repr, DecidableEq

/-- Embedding of `OrderHandler._payment_listener` (lines 417-433): scan
the hodl-invoice subscription, returning `true` at the first `HOLD` state
and `false` when the stream ends without one. -/
def payment_listener : List HodlInvoiceState → Bool
  | [] => false
  | s :: rest => if s = .HOLD then true else payment_listener rest

/-- Embedding of `OrderHandler._channel_open_listener` (lines 435-483):
for every update send a channel-update DM; on PENDING republish the ad
and keep listening; on OPEN settle the hodl invoice, send a final DM,
append the lease record, republish the ad and return; on UNKNOWN cancel
the hodl invoice and return; any other state (CLOSED) just keeps
listening; if the stream ends, return with no further action. -/
def channel_open_listener : List ChannelOpenUpdate → List TaskEvent
  | [] => []
  | u :: rest =>
    TaskEvent.dmChannelUpdate ::
      (match u.channel_state with
       | .PENDING => TaskEvent.adPublished :: channel_open_listener rest
       | .OPEN => [TaskEvent.settleIssued, TaskEvent.dmSettled,
                   TaskEvent.leaseWritten, TaskEvent.adPublished]
       | .UNKNOWN => [TaskEvent.cancelIssued]
       | .CLOSED => channel_open_listener rest)

/-- Embedding of `OrderHandler.process_payment_and_channel_open` (lines
530-550): wait for the invoice to reach HOLD; if the subscription closes
first, return with no further action; otherwise run the channel-open
listener. -/
def process_payment_and_channel_open (inv : List HodlInvoiceState)
    (chan : List ChannelOpenUpdate) : List TaskEvent :=
  if payment_listener inv then channel_open_listener chan else []

/-- Embedding of `OrderHandler._handle_channel_request` (lines 552-576):
verify the order; on a returned error send only the error DM; on the
AttributeError raised by the connection-failure branch the task dies with
nothing sent; otherwise create the hodl invoice (`_prepare_order`), send
the order-response DM and run the payment/channel-open pipeline. -/
def handle_channel_request (env : OrderEnv) : List TaskEvent :=
  match verify_order_and_connection env with
  | .err _ => [TaskEvent.dmOrderError]
  | .attrError => []
  | .ok =>
    TaskEvent.invoiceCreated :: TaskEvent.dmOrderResponse ::
      process_payment_and_channel_open env.invoice_states env.channel_updates

/-- First OPEN-or-UNKNOWN state yielded by the channel-open stream, the
state on which `_channel_open_listener` stops listening. -/
def first_settling_state : List ChannelOpenUpdate → Option ChannelState
  | [] => none
  | u :: rest =>
    if u.channel_state = .OPEN ∨ u.channel_state = .UNKNOWN then some u.channel_state
    else first_settling_state rest

/-! ## Ad capacity adjustment (AdHandler, publsp/marketplace/lsp.py
lines 109-272) -/

/-- Embedding of `AdHandler.adjust_ad_max_capacity` (lines 228-272) on the
success path of the backend calls: compute the funds available after
reserve and the cost of spending every UTXO, and derive the adjusted max
capacity (`none` models the Python `None` return that suppresses
publication). -/
def adjust_ad_max_capacity (ad : Ad) (utxos : List Utxo) (required_reserve : ℤ)
    (sat_per_vb : PyRat) (channel_max_bucket : ℤ) (sum_utxos_as_max_capacity : Bool) :
    Option ℤ :=
  let all_utxos_spend_cost := spend_all_cost utxos sat_per_vb 2
  let available_funds := spendable_amount utxos - required_reserve - all_utxos_spend_cost
  if available_funds < ad.min_channel_balance_sat then none
  else if sum_utxos_as_max_capacity then some available_funds
  else if available_funds < ad.max_channel_balance_sat then
    some (available_funds - available_funds % channel_max_bucket)
  else some ad.max_channel_balance_sat

/-- Outcome of `AdHandler.publish_ad` as far as the adjusted capacity is
concerned. -/
inductive PublishOutcome where
  | notPublished (deactivatedLiveAd : Bool)
  | published (max_channel_balance_sat : ℤ)
  deriving Repr, DecidableEq

/-- Embedding of the capacity-adjustment decision inside
`AdHandler.publish_ad` (lines 131-147): the gate there is
`if not adjusted_max_capacity`, and Python truthiness makes both `None`
and an adjusted value of 0 falsy — in either case the ad is not
published and any live ad is inactivated; otherwise the ad is published
with the adjusted value as `max_channel_balance_sat` (and
`max_initial_lsp_balance_sat`). -/
def publish_ad_decision (ad : Ad) (utxos : List Utxo) (required_reserve : ℤ)
    (sat_per_vb : PyRat) (channel_max_bucket : ℤ) (sum_utxos_as_max_capacity : Bool)
    (hasActiveAds : Bool) : PublishOutcome :=
  match adjust_ad_max_capacity ad utxos required_reserve sat_per_vb channel_max_bucket
      sum_utxos_as_max_capacity with
  | none => .notPublished hasActiveAds
  | some m => if m = 0 then .notPublished hasActiveAds else .published m

/-- ASCII lower-casing of one character (model of `str.lower` on the
ASCII tag values occurring here). -/
def lowerChar (c : Char) : Char :=
  if 65 ≤ c.toNat ∧ c.toNat ≤ 90 then Char.ofNat (c.toNat + 32) else c

/-- ASCII lower-casing of a string (model of Python `str.lower`). -/
def strLower (s : String) : String := ⟨s.toList.map lowerChar⟩

/-! ## Customer ad discovery filtering
(MarketplaceAgent.filter_ad_events, publsp/marketplace/base.py
lines 111-148) -/

/-- The keys of `Ad.model_fields`, in declaration order: the tag keyset an
event must contain to be parseable as an Ad. -/
def adFieldNames : List String :=
  ["d", "lsp_pubkey", "status",
   "min_required_channel_confirmations", "min_funding_confirms_within_blocks",
   "supports_zero_channel_reserve", "max_channel_expiry_blocks",
   "min_initial_client_balance_sat", "max_initial_client_balance_sat",
   "min_initial_lsp_balance_sat", "max_initial_lsp_balance_sat",
   "min_channel_balance_sat", "max_channel_balance_sat",
   "fixed_cost_sats", "variable_cost_ppm",
   "max_promised_fee_rate", "max_promised_base_fee"]

/-- A relay event as `filter_ad_events` sees it: its tag pairs and the
publisher timestamp (`created_at().as_secs()`). -/
structure NEvent where
  tags : List (String × String)
  created_at : ℤ
  deriving Repr, DecidableEq

/-- Lookup in the dict built by `{k: v for k, v in tag_pairs}`: on
duplicate keys the later pair wins. -/
def dictGet (pairs : List (String × String)) (k : String) : Option String :=
  (pairs.reverse.find? (fun p => p.1 = k)).map (·.2)

/-- Steps 1 and 2 of `filter_ad_events`: the tag keyset must contain every
`Ad` field, the `lsp_pubkey` value must be truthy (present and nonempty)
and the `status` value must not be "inactive" (case-insensitive). -/
def ad_event_kept (ev : NEvent) : Bool :=
  adFieldNames.all (fun k => (dictGet ev.tags k).isSome) &&
  (dictGet ev.tags "lsp_pubkey").getD "" ≠ "" &&
  strLower ((dictGet ev.tags "status").getD "") ≠ "inactive"

/-- Step 3 of `filter_ad_events`: insert an event into the
`latest_by_pair` dict, replacing in place only when strictly newer. -/
def updateLatestByPair (acc : List ((String × String) × NEvent))
    (key : String × String) (ev : NEvent) : List ((String × String) × NEvent) :=
  match acc.find? (fun p => p.1 = key) with
  | none => acc ++ [(key, ev)]
  | some prev =>
    if ev.created_at > prev.2.created_at then
      acc.map (fun p => if p.1 = key then (key, ev) else p)
    else acc

/-- The `(lsp_pubkey, d)` grouping key of a surviving event. -/
def ad_event_pair (ev : NEvent) : String × String :=
  ((dictGet ev.tags "lsp_pubkey").getD "", (dictGet ev.tags "d").getD "")

/-- Embedding of `MarketplaceAgent.filter_ad_events`
(publsp/marketplace/base.py lines 111-148): keep events whose tag keyset
covers every Ad field, drop inactive (and pubkey-less) events, then group
by `(lsp_pubkey, d)` keeping the event with the strictly largest publisher
timestamp (ties keep the earlier-seen event), in dict insertion order. -/
def filter_ad_events (events : List NEvent) : List NEvent :=
  let evs := events.filter ad_event_kept
  (evs.foldl (fun acc ev => updateLatestByPair acc (ad_event_pair ev) ev) []).map (·.2)

/-! ## Tagged-event codec (NostrTagsMixin, publsp/blip51/mixins.py) -/

/-- Python values as they appear in tag encoding/decoding: scalars plus
the JSON containers a decoded tag value can hold. -/
inductive PyVal where
  | vNone
  | vStr (s : String)
  | vInt (n : ℤ)
  | vBool (b : Bool)
  | vList (items : List PyVal)
  | vDict (items : List (String × PyVal))

/-- Character for a decimal digit. -/
def digitChar (d : ℕ) : Char := Char.ofNat (48 + d)

/-- Decimal digit characters of `n`, most significant first; `fuel` bounds
the recursion and any `fuel ≥ n` is enough. -/
def natToCharsAux : ℕ → ℕ → List Char
  | 0, n => [digitChar (n % 10)]
  | fuel + 1, n =>
    if n < 10 then [digitChar n]
    else natToCharsAux fuel (n / 10) ++ [digitChar (n % 10)]

/-- Python `str` on a nonnegative int. -/
def pyNatRepr (n : ℕ) : String := ⟨natToCharsAux n n⟩

/-- Python `str` on an int (decimal, minus sign for negatives). -/
def pyIntRepr (n : ℤ) : String :=
  if n < 0 then "-" ++ pyNatRepr n.natAbs else pyNatRepr n.natAbs

/-- Value of a decimal digit character. -/
def charDigit (c : Char) : Option ℕ :=
  if 48 ≤ c.toNat ∧ c.toNat ≤ 57 then some (c.toNat - 48) else none

/-- Accumulating decimal parse of a digit-character list. -/
def parseDigitsAcc (acc : ℕ) : List Char → Option ℕ
  | [] => some acc
  | c :: rest =>
    match charDigit c with
    | none => none
    | some d => parseDigitsAcc (10 * acc + d) rest

/-- Parse a nonempty all-digit character list as a natural number. -/
def parseDigitList (cs : List Char) : Option ℕ :=
  match cs with
  | [] => none
  | _ => parseDigitsAcc 0 cs

/-- Parse of a decimal integer string (optional sign then digits): the
strings accepted by Python `int(str)` modulo whitespace and underscore
grouping, which never occur in encoder output. -/
def parseIntStr (s : String) : Option ℤ :=
  match s.toList with
  | [] => none
  | c :: rest =>
    if c = '-' then (parseDigitList rest).map (fun n => -(n : ℤ))
    else if c = '+' then (parseDigitList rest).map (fun n => (n : ℤ))
    else (parseDigitList (c :: rest)).map (fun n => (n : ℤ))


/-- Skip JSON whitespace. -/
def skipWs : List Char → List Char
  | [] => []
  | c :: rest =>
    if c = ' ' ∨ c = '\t' ∨ c = '\n' ∨ c = '\r' then skipWs rest else c :: rest

/-- Parse the remainder of a JSON string literal (opening quote already
consumed), handling the single-character escapes; `\u` escapes are outside
this model (they never occur in the encoder output considered here). -/
def parseJStr : ℕ → List Char → Option (String × List Char)
  | 0, _ => none
  | _ + 1, [] => none
  | fuel + 1, c :: rest =>
    if c = '"' then some ("", rest)
    else if c = '\\' then
      match rest with
      | [] => none
      | e :: rest2 =>
        let decoded : Option Char :=
          if e = '"' then some '"'
          else if e = '\\' then some '\\'
          else if e = '/' then some '/'
          else if e = 'n' then some '\n'
          else if e = 't' then some '\t'
          else if e = 'r' then some '\r'
          else if e = 'b' then some (Char.ofNat 8)
          else if e = 'f' then some (Char.ofNat 12)
          else none
        match decoded with
        | none => none
        | some ch =>
          (parseJStr fuel rest2).map (fun p => (⟨ch :: p.1.toList⟩, p.2))
    else (parseJStr fuel rest).map (fun p => (⟨c :: p.1.toList⟩, p.2))

/-- Parse a JSON integer (sign and digits); a fractional or exponent part
makes it a float, which this model does not cover. -/
def parseJNum (cs : List Char) : Option (ℤ × List Char) :=
  let sign : Bool := cs.head? = some '-'
  let cs1 := if sign then cs.drop 1 else cs
  let digits := cs1.takeWhile (fun c => (charDigit c).isSome)
  let rest := cs1.dropWhile (fun c => (charDigit c).isSome)
  match parseDigitList digits with
  | none => none
  | some n =>
    match rest.head? with
    | some c => if c = '.' ∨ c = 'e' ∨ c = 'E' then none
                else some (if sign then -(n : ℤ) else (n : ℤ), rest)
    | none => some (if sign then -(n : ℤ) else (n : ℤ), rest)

/-- Sub-grammar selector for the fueled JSON parser. -/
inductive JMode where
  | value
  | arrayFirst
  | arrayTail
  | objFirst
  | objTail

/-- Fueled recursive-descent parser for the JSON fragment `json.loads`
can produce out of the encoder: null, booleans, integers, strings, arrays
and objects. -/
def jparse : ℕ → JMode → List Char → Option (PyVal × List Char)
  | 0, _, _ => none
  | fuel + 1, .value, cs =>
    match skipWs cs with
    | [] => none
    | c :: rest =>
      if c = '"' then (parseJStr (fuel + 1) rest).map (fun p => (PyVal.vStr p.1, p.2))
      else if c = '[' then jparse fuel .arrayFirst rest
      else if c = '{' then jparse fuel .objFirst rest
      else if c = 't' then
        if ['r', 'u', 'e'].isPrefixOf rest then some (PyVal.vBool true, rest.drop 3) else none
      else if c = 'f' then
        if ['a', 'l', 's', 'e'].isPrefixOf rest then some (PyVal.vBool false, rest.drop 4) else none
      else if c = 'n' then
        if ['u', 'l', 'l'].isPrefixOf rest then some (PyVal.vNone, rest.drop 3) else none
      else (parseJNum (c :: rest)).map (fun p => (PyVal.vInt p.1, p.2))
  | fuel + 1, .arrayFirst, cs =>
    match skipWs cs with
    | [] => none
    | c :: rest =>
      if c = ']' then some (PyVal.vList [], rest)
      else
        match jparse fuel .value (c :: rest) with
        | none => none
        | some (v, cs2) =>
          match jparse fuel .arrayTail cs2 with
          | some (PyVal.vList items, cs3) => some (PyVal.vList (v :: items), cs3)
          | _ => none
  | fuel + 1, .arrayTail, cs =>
    match skipWs cs with
    | [] => none
    | c :: rest =>
      if c = ']' then some (PyVal.vList [], rest)
      else if c = ',' then
        match jparse fuel .value rest with
        | none => none
        | some (v, cs2) =>
          match jparse fuel .arrayTail cs2 with
          | some (PyVal.vList items, cs3) => some (PyVal.vList (v :: items), cs3)
          | _ => none
      else none
  | fuel + 1, .objFirst, cs =>
    match skipWs cs with
    | [] => none
    | c :: rest =>
      if c = '}' then some (PyVal.vDict [], rest)
      else if c = '"' then
        match parseJStr (fuel + 1) rest with
        | none => none
        | some (k, cs2) =>
          match skipWs cs2 with
          | [] => none
          | c2 :: cs3 =>
            if c2 = ':' then
              match jparse fuel .value cs3 with
              | none => none
              | some (v, cs4) =>
                match jparse fuel .objTail cs4 with
                | some (PyVal.vDict items, cs5) => some (PyVal.vDict ((k, v) :: items), cs5)
                | _ => none
            else none
      else none
  | fuel + 1, .objTail, cs =>
    match skipWs cs with
    | [] => none
    | c :: rest =>
      if c = '}' then some (PyVal.vDict [], rest)
      else if c = ',' then
        match skipWs rest with
        | [] => none
        | c1 :: cs2 =>
          if c1 = '"' then
            match parseJStr (fuel + 1) cs2 with
            | none => none
            | some (k, cs3) =>
              match skipWs cs3 with
              | [] => none
              | c2 :: cs4 =>
                if c2 = ':' then
                  match jparse fuel .value cs4 with
                  | none => none
                  | some (v, cs5) =>
                    match jparse fuel .objTail cs5 with
                    | some (PyVal.vDict items, cs6) => some (PyVal.vDict ((k, v) :: items), cs6)
                    | _ => none
                else none
          else none
      else none

/-- Model of `json.loads` on a raw tag value (must consume the whole
string). -/
def jsonParse (s : String) : Option PyVal :=
  match jparse (2 * s.length + 4) .value s.toList with
  | none => none
  | some (v, rest) => if skipWs rest = [] then some v else none

/-- Embedding of the per-tag decode step of
`NostrTagsMixin.model_from_tags` (publsp/blip51/mixins.py lines 16-29):
a nonempty value starting with a brace or bracket is JSON-parsed (falling
back to the raw string on a parse error), the literal string "null"
decodes to `None`, and anything else stays a raw string. -/
def parseRaw (raw : String) : PyVal :=
  if raw ≠ "" ∧ (raw.toList.head? = some '{' ∨ raw.toList.head? = some '[') then
    match jsonParse raw with
    | some v => v
    | none => PyVal.vStr raw
  else if raw = "null" then PyVal.vNone
  else PyVal.vStr raw


/-! ## Compact-JSON encoder for container tag values.  Models
`json.dumps(val, default=str, separators=(",", ":"))` as `model_dump_tags`
(publsp/blip51/mixins.py line 42) applies it to a container field: the
tagged models carry scalars and flat lists/dicts of scalars, so the
encoder is embedded on exactly those shapes. -/

/-- Lowercase hexadecimal digit character, as `json.dumps` emits inside
a `\u` escape. -/
def hexDigitChar (d : ℕ) : Char :=
  if d < 10 then Char.ofNat (48 + d) else Char.ofNat (87 + d)

/-- The `json.dumps` escape of one character inside a string literal
(default `ensure_ascii=True`): printable ASCII passes through, quote,
backslash and the common controls take two-character escapes, anything
else a `\uXXXX` escape (astral codepoints, which json writes as
surrogate pairs, do not occur in the embedded fragment). -/
def escapeJChar (c : Char) : List Char :=
  if c = '"' then ['\\', '"']
  else if c = '\\' then ['\\', '\\']
  else if c = '\n' then ['\\', 'n']
  else if c = '\t' then ['\\', 't']
  else if c = '\r' then ['\\', 'r']
  else if c.toNat = 8 then ['\\', 'b']
  else if c.toNat = 12 then ['\\', 'f']
  else if 32 ≤ c.toNat ∧ c.toNat ≤ 126 then [c]
  else ['\\', 'u', hexDigitChar (c.toNat / 4096 % 16), hexDigitChar (c.toNat / 256 % 16),
        hexDigitChar (c.toNat / 16 % 16), hexDigitChar (c.toNat % 16)]

/-- The escaped character stream of a json string literal body. -/
def escapeJChars (cs : List Char) : List Char := (cs.map escapeJChar).flatten

/-- Compact-JSON text of a scalar value (`null`, `true`/`false`, the
decimal digits of an int, a quoted escaped string); the container cases
are assembled in `dumpJsonChars`. -/
def dumpScalarChars : PyVal → List Char
  | .vNone => ['n', 'u', 'l', 'l']
  | .vBool true => ['t', 'r', 'u', 'e']
  | .vBool false => ['f', 'a', 'l', 's', 'e']
  | .vInt n => (pyIntRepr n).toList
  | .vStr s => '"' :: escapeJChars s.toList ++ ['"']
  | .vList _ => []
  | .vDict _ => []

/-- Tail of a compact-JSON array after its first element: a comma before
each further element, then the closing bracket. -/
def dumpListTail : List PyVal → List Char
  | [] => [']']
  | v :: vs => ',' :: dumpScalarChars v ++ dumpListTail vs

/-- Body of a compact-JSON array after the opening bracket. -/
def dumpListBody : List PyVal → List Char
  | [] => [']']
  | v :: vs => dumpScalarChars v ++ dumpListTail vs

/-- One `"key":value` member of a compact-JSON object. -/
def dumpEntry (e : String × PyVal) : List Char :=
  '"' :: escapeJChars e.1.toList ++ '"' :: ':' :: dumpScalarChars e.2

/-- Tail of a compact-JSON object after its first member. -/
def dumpDictTail : List (String × PyVal) → List Char
  | [] => ['}']
  | e :: es => ',' :: dumpEntry e ++ dumpDictTail es

/-- Body of a compact-JSON object after the opening brace. -/
def dumpDictBody : List (String × PyVal) → List Char
  | [] => ['}']
  | e :: es => dumpEntry e ++ dumpDictTail es

/-- Compact JSON of a tag value over the shapes the tagged models put in
a container field. -/
def dumpJsonChars : PyVal → List Char
  | .vList items => '[' :: dumpListBody items
  | .vDict entries => '{' :: dumpDictBody entries
  | v => dumpScalarChars v

/-- Embedding of the per-value encode step of `model_dump_tags`
(publsp/blip51/mixins.py lines 36-45): `None` to the literal "null", a
container to compact JSON, anything else to `str(val)` (a bool to
"True"/"False", an int to its decimal string, a string to itself; the
enum branch is instantiated at the model encoders, e.g.
`errorRespDumpTags`). -/
def encodeTagValue : PyVal → String
  | .vNone => "null"
  | .vStr s => s
  | .vInt n => pyIntRepr n
  | .vBool b => if b then "True" else "False"
  | .vList items => ⟨dumpJsonChars (.vList items)⟩
  | .vDict entries => ⟨dumpJsonChars (.vDict entries)⟩

/-- Characters the json string escape passes through unchanged:
printable ASCII other than quote and backslash. -/
def jsonSafeChar (c : Char) : Bool :=
  decide ((32 ≤ c.toNat ∧ c.toNat ≤ 126) ∧ c ≠ '"' ∧ c ≠ '\\')

/-- The JSON scalars over which the container round trip is stated:
`None`, bools, ints, and strings of characters the escape leaves
unchanged (a float never occurs in a tagged-model container). -/
def jscalarSafe : PyVal → Bool
  | .vNone => true
  | .vBool _ => true
  | .vInt _ => true
  | .vStr s => s.toList.all jsonSafeChar
  | .vList _ => false
  | .vDict _ => false


/-! ## Pydantic coercion layer for decoded tag values.  Models the lax
validation pydantic v2 applies in `cls(**data)` for the field types
occurring in the tagged models (str, int, bool, Optional[str], and the
`OrderErrorCode` IntEnum). -/

/-- Coerce a decoded value into a `str` field. -/
def coerceStr : PyVal → Option String
  | .vStr s => some s
  | _ => none

/-- Coerce a decoded value into an `int` field (pydantic parses integer
strings; a bool is rejected for int fields in v2). -/
def coerceInt : PyVal → Option ℤ
  | .vInt n => some n
  | .vStr s => parseIntStr s
  | _ => none

/-- The string forms pydantic v2 lax mode accepts for a `bool` field
(lower-cased input matched against its fixed list), plus int 0/1. -/
def coerceBool : PyVal → Option Bool
  | .vBool b => some b
  | .vInt 0 => some false
  | .vInt 1 => some true
  | .vStr s =>
    let l := strLower s
    if l = "1" ∨ l = "on" ∨ l = "t" ∨ l = "true" ∨ l = "y" ∨ l = "yes" then some true
    else if l = "0" ∨ l = "off" ∨ l = "f" ∨ l = "false" ∨ l = "n" ∨ l = "no" then some false
    else none
  | _ => none

/-- Coerce a decoded value into an `Optional[str]` field. -/
def coerceOptStr : PyVal → Option (Option String)
  | .vNone => some none
  | .vStr s => some (some s)
  | _ => none

/-- Coerce a decoded value into the `OrderErrorCode` IntEnum field. -/
def coerceErrorCode (v : PyVal) : Option OrderErrorCode :=
  match coerceInt v with
  | some 0 => some .connection_error
  | some (-32602) => some .invalid_params
  | some 1 => some .client_rejected
  | some 100 => some .option_mismatch
  | _ => none

/-! ## The codec instantiated at the `Order` and `OrderErrorResponse`
models -/

/-- Tag encoding of an `Optional[str]` value (`None` encodes to the
literal string "null"). -/
def dumpOptStr : Option String → String
  | none => "null"
  | some s => s

/-- Embedding of `NostrTagsMixin.model_dump_tags` at the `Order` model:
one `(key, value)` tag per field in declaration order; `None` encodes to
the literal "null", a string to itself, an int to its decimal string, a
bool to "True"/"False".  (The `field_serializer` on the two balance
fields pre-converts them to the same decimal strings, so it does not
change the tag values.) -/
def orderDumpTags (o : Order) : List (String × String) :=
  [("d", o.d),
   ("target_pubkey_uri", o.target_pubkey_uri),
   ("lsp_balance_sat", pyIntRepr o.lsp_balance_sat),
   ("client_balance_sat", pyIntRepr o.client_balance_sat),
   ("required_channel_confirmations", pyIntRepr o.required_channel_confirmations),
   ("funding_confirms_within_blocks", pyIntRepr o.funding_confirms_within_blocks),
   ("channel_expiry_blocks", pyIntRepr o.channel_expiry_blocks),
   ("token", dumpOptStr o.token),
   ("refund_onchain_address", dumpOptStr o.refund_onchain_address),
   ("announce_channel", if o.announce_channel then "True" else "False")]

/-- Decoded value for a key of the data dict built by `model_from_tags`
(later duplicate tags win, then the raw value is decoded). -/
def tagField (tags : List (String × String)) (k : String) : Option PyVal :=
  (dictGet tags k).map parseRaw

/-- Field extraction for a required pydantic field: missing key or failed
coercion is a validation error. -/
def fieldReq {α : Type} (tags : List (String × String)) (k : String)
    (coe : PyVal → Option α) : Option α :=
  match tagField tags k with
  | none => none
  | some v => coe v

/-- Field extraction for a defaulted pydantic field: a missing key takes
the declared default, a present key must coerce. -/
def fieldOptD {α : Type} (tags : List (String × String)) (k : String) (dflt : α)
    (coe : PyVal → Option α) : Option α :=
  match tagField tags k with
  | none => some dflt
  | some v => coe v

/-- Embedding of `NostrTagsMixin.model_from_tags` at the `Order` model:
decode each raw tag value (`parseRaw`), then validate the data dict as
pydantic does — `d` is the only field without a default; the defaults of
the other fields come from `OrderSettings()` and are supplied here as a
`defaults` record. -/
def orderFromTags (defaults : Order) (tags : List (String × String)) : Option Order := do
  let dv ← fieldReq tags "d" coerceStr
  let target ← fieldOptD tags "target_pubkey_uri" defaults.target_pubkey_uri coerceStr
  let lsp ← fieldOptD tags "lsp_balance_sat" defaults.lsp_balance_sat coerceInt
  let client ← fieldOptD tags "client_balance_sat" defaults.client_balance_sat coerceInt
  let reqConf ← fieldOptD tags "required_channel_confirmations"
    defaults.required_channel_confirmations coerceInt
  let fundConf ← fieldOptD tags "funding_confirms_within_blocks"
    defaults.funding_confirms_within_blocks coerceInt
  let expiry ← fieldOptD tags "channel_expiry_blocks" defaults.channel_expiry_blocks coerceInt
  let token ← fieldOptD tags "token" defaults.token coerceOptStr
  let refund ← fieldOptD tags "refund_onchain_address" defaults.refund_onchain_address coerceOptStr
  let announce ← fieldOptD tags "announce_channel" defaults.announce_channel coerceBool
  some { d := dv, target_pubkey_uri := target, lsp_balance_sat := lsp,
         client_balance_sat := client, required_channel_confirmations := reqConf,
         funding_confirms_within_blocks := fundConf, channel_expiry_blocks := expiry,
         token := token, refund_onchain_address := refund, announce_channel := announce }

/-- Embedding of `model_dump_tags` at the `OrderErrorResponse` model: the
`code` IntEnum encodes to the decimal string of its underlying value, the
optional message to "null" or itself. -/
def errorRespDumpTags (e : OrderErrorResponse) : List (String × String) :=
  [("code", pyIntRepr e.code.value),
   ("error_message", dumpOptStr e.error_message)]

/-- Embedding of `model_from_tags` at the `OrderErrorResponse` model
(`code` is required, `error_message` defaults to `None` from
`ErrorMessageMixin`). -/
def errorRespFromTags (tags : List (String × String)) : Option OrderErrorResponse := do
  let code ← fieldReq tags "code" coerceErrorCode
  let msg ← fieldOptD tags "error_message" none coerceOptStr
  some { code := code, error_message := msg }

/-! ## OrderResponse.from_order (publsp/blip51/order.py lines 132-167) -/

/-- Embedding of `OrderState` (publsp/blip51/order.py). -/
inductive OrderState where
  | CREATED
  | COMPLETED
  | FAILED
  deriving Repr, DecidableEq

/-- Embedding of `OrderResponse`.  `created_at` (a datetime in the
source) is modelled as an integer timestamp; `payment` is the Bolt11
content of the `Payment` (its `onchain` member is always `None`);
`channel` is not consulted by any claim and is modelled by an optional
placeholder string. -/
structure OrderResponse where
  order_id : String
  lsp_balance_sat : ℤ
  client_balance_sat : ℤ
  required_channel_confirmations : ℤ
  funding_confirms_within_blocks : ℤ
  channel_expiry_blocks : ℤ
  token : String
  created_at : ℤ
  announce_channel : Bool
  order_state : OrderState
  payment : Bolt11
  channel : Option String
  error_message : Option String
  deriving Repr, DecidableEq

/-- The keys of `Order.model_dump()`, i.e. the `Order` model fields in
declaration order. -/
def orderFieldNames : List String :=
  ["d", "target_pubkey_uri", "lsp_balance_sat", "client_balance_sat",
   "required_channel_confirmations", "funding_confirms_within_blocks",
   "channel_expiry_blocks", "token", "refund_onchain_address", "announce_channel"]

/-- The fields of `OrderResponse` (`cls.__fields__`) in declaration
order. -/
def orderResponseFieldNames : List String :=
  ["order_id", "lsp_balance_sat", "client_balance_sat",
   "required_channel_confirmations", "funding_confirms_within_blocks",
   "channel_expiry_blocks", "token", "created_at", "announce_channel",
   "order_state", "payment", "channel", "error_message"]

/-- Typed `getattr(order, f)` for string-valued `Order` attributes. -/
def orderAttrStr (o : Order) : String → Option String
  | "d" => some o.d
  | "target_pubkey_uri" => some o.target_pubkey_uri
  | _ => none

/-- Typed `getattr(order, f)` for int-valued `Order` attributes. -/
def orderAttrInt (o : Order) : String → Option ℤ
  | "lsp_balance_sat" => some o.lsp_balance_sat
  | "client_balance_sat" => some o.client_balance_sat
  | "required_channel_confirmations" => some o.required_channel_confirmations
  | "funding_confirms_within_blocks" => some o.funding_confirms_within_blocks
  | "channel_expiry_blocks" => some o.channel_expiry_blocks
  | _ => none

/-- Typed `getattr(order, f)` for Optional[str]-valued attributes. -/
def orderAttrOptStr (o : Order) : String → Option (Option String)
  | "token" => some o.token
  | "refund_onchain_address" => some o.refund_onchain_address
  | _ => none

/-- Typed `getattr(order, f)` for bool-valued attributes. -/
def orderAttrBool (o : Order) : String → Option Bool
  | "announce_channel" => some o.announce_channel
  | _ => none

/-- The class-level defaults of `OrderResponse`: both default expressions
(`str(uuid.uuid4())` and `datetime.now(timezone.utc)`) are evaluated once
when the class object is created, so within one process every
instantiation that omits the field receives these same two values. -/
structure OrderResponseClassDefaults where
  order_id : String
  created_at : ℤ

/-- Embedding of `OrderResponse.from_order` (publsp/blip51/order.py lines
155-167): `customer_order_data` copies, for each `OrderResponse` field
name, the order attribute of the same name when that name is a key of
`order.model_dump()`; the constructor call adds `order_state=CREATED` and
`payment`, everything else falls back to class defaults.  Copying an
order whose `token` is `None` into the str-typed response `token` field
is a pydantic validation error, hence the `Option` result. -/
def OrderResponse.from_order (defaults : OrderResponseClassDefaults) (o : Order)
    (payment : Bolt11) : Option OrderResponse :=
  let copyStr := fun f => if orderFieldNames.contains f then orderAttrStr o f else none
  let copyInt := fun f => if orderFieldNames.contains f then orderAttrInt o f else none
  let copyOptStr := fun f => if orderFieldNames.contains f then orderAttrOptStr o f else none
  let copyBool := fun f => if orderFieldNames.contains f then orderAttrBool o f else none
  match copyOptStr "token" with
  | some none => none
  | tokenCopy =>
    some {
      order_id := (copyStr "order_id").getD defaults.order_id,
      lsp_balance_sat := (copyInt "lsp_balance_sat").getD 0,
      client_balance_sat := (copyInt "client_balance_sat").getD 0,
      required_channel_confirmations := (copyInt "required_channel_confirmations").getD 0,
      funding_confirms_within_blocks := (copyInt "funding_confirms_within_blocks").getD 0,
      channel_expiry_blocks := (copyInt "channel_expiry_blocks").getD 0,
      token := ((tokenCopy.getD none).getD ""),
      created_at := (copyInt "created_at").getD defaults.created_at,
      announce_channel := (copyBool "announce_channel").getD false,
      order_state := .CREATED,
      payment := payment,
      channel := none,
      error_message := some "" }

/-! ## Concrete fixtures for the scenario claims (spec section 8) -/

/-- The S1 offer: fixed 75000, variable 10000 ppm, capacity range
1M..10M, max expiry 12960, other fields at the `AdSettings` defaults. -/
def s1_ad : Ad :=
  { d := "9f64a747-0000-4000-8000-000000000001",
    lsp_pubkey := "0270f449",
    status := "active",
    min_required_channel_confirmations := 0,
    min_funding_confirms_within_blocks := 2,
    supports_zero_channel_reserve := false,
    max_channel_expiry_blocks := 12960,
    min_initial_client_balance_sat := 0,
    max_initial_client_balance_sat := 0,
    min_initial_lsp_balance_sat := 0,
    max_initial_lsp_balance_sat := 10000000,
    min_channel_balance_sat := 1000000,
    max_channel_balance_sat := 10000000,
    fixed_cost_sats := 75000,
    variable_cost_ppm := 10000,
    max_promised_fee_rate := 2500,
    max_promised_base_fee := 1 }

/-- The S1 order: 5M sats all on the LSP side, lease 4320 blocks. -/
def s1_order : Order :=
  { d := "9f64a747-0000-4000-8000-000000000001",
    target_pubkey_uri := "0270f449@127.0.0.1:9735",
    lsp_balance_sat := 5000000,
    client_balance_sat := 0,
    required_channel_confirmations := 0,
    funding_confirms_within_blocks := 6,
    channel_expiry_blocks := 4320,
    token := some "",
    refund_onchain_address := none,
    announce_channel := true }

/-- The S2 order: capacity 500000, below the S1 offer minimum. -/
def s2_order : Order :=
  { s1_order with lsp_balance_sat := 500000 }

/-- An order at exactly the S1 capacity minimum. -/
def min_cap_order : Order :=
  { s1_order with lsp_balance_sat := 1000000 }

/-- An order at exactly the S1 capacity maximum. -/
def max_cap_order : Order :=
  { s1_order with lsp_balance_sat := 10000000 }

/-- An order one sat above the S1 capacity maximum. -/
def over_cap_order : Order :=
  { s1_order with lsp_balance_sat := 10000001 }

/-- The S1 offer with a roomier per-side LSP bound, so that a capacity
one above the maximum trips the capacity check first. -/
def c3_ad : Ad :=
  { s1_ad with max_initial_lsp_balance_sat := 20000000 }

/-- Tag list holding every Ad field key, with the given status value. -/
def c4_tags (status : String) : List (String × String) :=
  adFieldNames.map (fun k => (k, if k = "status" then status else "v"))

/-- An active offer event at publisher timestamp 1. -/
def c4_event_active : NEvent := { tags := c4_tags "active", created_at := 1 }

/-- The replacement event of the same `(lsp_pubkey, d)` pair: timestamp 2,
status inactive. -/
def c4_event_inactive : NEvent := { tags := c4_tags "inactive", created_at := 2 }

/-- An order whose `token` field is the literal string "null" — the
codec counterexample. -/
def c5_null_order : Order :=
  { s1_order with token := some "null" }

/-- A large confirmed P2WPKH wallet UTXO. -/
def big_utxo : Utxo :=
  { address_type := "WITNESS_PUBKEY_HASH", amount_sat := 100000000, confirmations := 6 }

/-- Order environment: valid order, solvent wallet, reachable peer,
customer pays (HOLD), channel stream yields one PENDING update and then
disconnects. -/
def c6_env_pending : OrderEnv :=
  { ad := s1_ad, order := s1_order,
    utxoFetch := some [big_utxo], required_reserve := 0, sat_per_vb := 1,
    connectResult := .ok,
    invoice_states := [.HOLD],
    channel_updates := [{ channel_state := .PENDING, txid_hex := "ab", output_index := 0 }] }

/-- Same environment but the channel stream ends with UNKNOWN after
PENDING (scenario S5). -/
def c6_env_unknown : OrderEnv :=
  { c6_env_pending with
    channel_updates := [{ channel_state := .PENDING, txid_hex := "ab", output_index := 0 },
                        { channel_state := .UNKNOWN, txid_hex := "ab", output_index := 0 }] }

/-- Environment in which the order fails offer validation AND the UTXO
fetch fails. -/
def c7_env : OrderEnv :=
  { c6_env_pending with order := s2_order, utxoFetch := none }

/-- Environment with a valid order and a failed UTXO fetch. -/
def c7_env_utxofail : OrderEnv :=
  { c6_env_pending with utxoFetch := none }

/-- Environment with a valid order, solvent wallet and a peer-connect
HTTP error whose message mentions a timeout. -/
def c9_env : OrderEnv :=
  { c6_env_pending with connectResult := .errorResp "dial tcp: i/o timeout" }

/-- The S6 wallet: three 2M-sat confirmed P2WPKH UTXOs. -/
def s6_utxos : List Utxo :=
  [{ address_type := "WITNESS_PUBKEY_HASH", amount_sat := 2000000, confirmations := 4 },
   { address_type := "WITNESS_PUBKEY_HASH", amount_sat := 2000000, confirmations := 5 },
   { address_type := "WITNESS_PUBKEY_HASH", amount_sat := 2000000, confirmations := 6 }]

/-- A wallet whose spendable amount falls in [min_channel_balance_sat,
channel_max_bucket): one confirmed 3.05M-sat P2WPKH UTXO (with zero
reserve and zero fee rate the adjusted capacity bucket-rounds to 0). -/
def c8_utxos : List Utxo :=
  [{ address_type := "WITNESS_PUBKEY_HASH", amount_sat := 3050000, confirmations := 6 }]

/-- Class defaults drawn once at `OrderResponse` class creation. -/
def c10_defaults : OrderResponseClassDefaults :=
  { order_id := "6e9cfa4f-0000-4000-8000-00000000abcd", created_at := 1750000000 }

/-- A second distinct order for the `from_order` claim. -/
def c10_order2 : Order :=
  { s1_order with lsp_balance_sat := 2000000, channel_expiry_blocks := 1000 }

/-- Payment attached to the first response. -/
def c10_pay1 : Bolt11 := prepare_order_bolt11 s1_ad s1_order

/-- Payment attached to the second response. -/
def c10_pay2 : Bolt11 := prepare_order_bolt11 s1_ad c10_order2

/-- A throwaway response value for `Option.getD`. -/
def junk_response : OrderResponse :=
  { order_id := "", lsp_balance_sat := 0, client_balance_sat := 0,
    required_channel_confirmations := 0, funding_confirms_within_blocks := 0,
    channel_expiry_blocks := 0, token := "", created_at := 0,
    announce_channel := false, order_state := .CREATED,
    payment := c10_pay1, channel := none, error_message := none }

/-- The response `from_order` yields for the S1 order. -/
def c10_resp1 : OrderResponse :=
  (OrderResponse.from_order c10_defaults s1_order c10_pay1).getD junk_response

/-- The response `from_order` yields for the second order. -/
def c10_resp2 : OrderResponse :=
  (OrderResponse.from_order c10_defaults c10_order2 c10_pay2).getD junk_response

/-- Raw tag value that decodes back to itself: not the literal "null"
and not opening a JSON container. -/
def goodRaw (s : String) : Prop :=
  s ≠ "null" ∧ s.toList.head? ≠ some '{' ∧ s.toList.head? ≠ some '['

instance (s : String) : Decidable (goodRaw s) := by
  unfold goodRaw; infer_instance

/-! ## Claim theorems -/

/-- C1 (counterexample): at the S1 literals (fixed 75000, variable 10000
ppm, capacity 5000000, expiry 4320, max expiry 12960) the LSP pricing
yields a total fee of 91667 sats, not the 158333 sats the claim states
(the claim formula itself gives 75000 + round(16666.67) = 91667; 158333
arises only from the arithmetic slip 10000 x 5e-6 in the spec example). -/
theorem C1_counterexample :
    (get_order_costs s1_ad s1_order).total_fee = 91667 ∧
    ¬ (get_order_costs s1_ad s1_order).total_fee = 158333 ∧
    s1_ad.fixed_cost_sats = 75000 ∧ s1_ad.variable_cost_ppm = 10000 ∧
    s1_order.total_capacity = 5000000 ∧ s1_order.channel_expiry_blocks = 4320 ∧
    s1_ad.max_channel_expiry_blocks = 12960 := by
  decide

/-- C1 (amended): for every offer and order, `get_order_costs` returns
`total_fee = fixed_cost + round(variable_ppm * 1e-6 * capacity *
expiry/max_expiry)` and `total_cost = total_fee + client_side_sats`,
where capacity = lsp_balance_sat + client_balance_sat; at the S1 literals
the fee is 91667 sats and (with client balance 0) the cost is 91667. -/
theorem C1_order_pricing :
    ∀ (ad : Ad) (o : Order),
      (get_order_costs ad o).total_fee =
        ad.fixed_cost_sats +
          pyRound ((ad.variable_cost_ppm : PyRat) * (0.000001 : PyRat) *
            ((o.lsp_balance_sat + o.client_balance_sat : ℤ) : PyRat) *
            ((o.channel_expiry_blocks : PyRat) / (ad.max_channel_expiry_blocks : PyRat))) ∧
      (get_order_costs ad o).total_cost = (get_order_costs ad o).total_fee + o.client_balance_sat ∧
      (get_order_costs s1_ad s1_order).total_fee = 91667 ∧
      (get_order_costs s1_ad s1_order).total_cost = 91667 := by
  intro ad o
  exact ⟨rfl, rfl, by decide, by decide⟩

/-- C2 (counterexample): the S1 order passes section-4.D validation and
the LSP builds its response with `get_order_costs`/`_prepare_order`, yet
the customer response validator rejects it: the customer expects the
unprorated fee int(75000 + 10000e-6*5000000) = 125000 while the LSP
charged the prorated 91667. -/
theorem C2_counterexample :
    (s1_order.validate_order s1_ad).is_valid = true ∧
    (is_order_resp_valid s1_ad s1_order.lsp_balance_sat s1_order.client_balance_sat
      (prepare_order_bolt11 s1_ad s1_order)).is_valid = false := by
  decide

/-- C2 (amended): for every offer and order, the customer response
validator run on the response the LSP builds from its own pricing (same
selected offer, same requested balances) accepts exactly when the
unprorated expected fee of the customer,
`int(fixed_cost + variable_ppm * 1e-6 * capacity)` coincides with the
prorated `total_fee` of the LSP; in particular it rejects whenever the
proration changes the fee, as in S1. -/
theorem C2_validator_on_lsp_response :
    ∀ (ad : Ad) (o : Order),
      (is_order_resp_valid ad o.lsp_balance_sat o.client_balance_sat
          (prepare_order_bolt11 ad o)).is_valid = true ↔
        pyTrunc ((ad.fixed_cost_sats : PyRat) +
            (ad.variable_cost_ppm : PyRat) * (0.000001 : PyRat) *
            ((o.lsp_balance_sat + o.client_balance_sat : ℤ) : PyRat)) =
          (get_order_costs ad o).total_fee := by
  intro ad o
  unfold is_order_resp_valid prepare_order_bolt11
  simp only [ne_eq, ite_not]
  by_cases h : pyTrunc ((ad.fixed_cost_sats : PyRat) +
      (ad.variable_cost_ppm : PyRat) * (0.000001 : PyRat) *
      ((o.lsp_balance_sat + o.client_balance_sat : ℤ) : PyRat)) =
      calculate_lease_cost_spec ad.fixed_cost_sats ad.variable_cost_ppm
        (o.lsp_balance_sat + o.client_balance_sat) o.channel_expiry_blocks
        ad.max_channel_expiry_blocks
  · simp [h, Order.total_capacity, get_order_costs]
  · simp [h, Order.total_capacity, get_order_costs]

/-- C3: `validate_order` accepts exactly when every range constraint
holds (all bounds inclusive); otherwise it reports an OptionMismatch
whose message names the first failing check in the fixed source order
(per-side bounds, then capacity bounds, then confirmation minima, then
expiry). -/
theorem C3_validate_order :
    ∀ (o : Order) (ad : Ad),
      ((o.validate_order ad).is_valid = true ↔
        (ad.min_initial_lsp_balance_sat ≤ o.lsp_balance_sat ∧
         o.lsp_balance_sat ≤ ad.max_initial_lsp_balance_sat ∧
         ad.min_initial_client_balance_sat ≤ o.client_balance_sat ∧
         o.client_balance_sat ≤ ad.max_initial_client_balance_sat ∧
         ad.min_channel_balance_sat ≤ o.client_balance_sat + o.lsp_balance_sat ∧
         o.client_balance_sat + o.lsp_balance_sat ≤ ad.max_channel_balance_sat ∧
         ad.min_required_channel_confirmations ≤ o.required_channel_confirmations ∧
         ad.min_funding_confirms_within_blocks ≤ o.funding_confirms_within_blocks ∧
         o.channel_expiry_blocks ≤ ad.max_channel_expiry_blocks)) ∧
      ((o.validate_order ad).is_valid = false →
        (o.validate_order ad).error_code = some OrderErrorCode.option_mismatch) ∧
      (¬ ad.min_initial_lsp_balance_sat ≤ o.lsp_balance_sat →
        (o.validate_order ad).error_message =
          some "lsp_balance_sat < min_initial_lsp_balance_sat") ∧
      (ad.min_initial_lsp_balance_sat ≤ o.lsp_balance_sat →
       ¬ o.lsp_balance_sat ≤ ad.max_initial_lsp_balance_sat →
        (o.validate_order ad).error_message =
          some "lsp_balance_sat > max_initial_lsp_balance_sat") ∧
      (ad.min_initial_lsp_balance_sat ≤ o.lsp_balance_sat →
       o.lsp_balance_sat ≤ ad.max_initial_lsp_balance_sat →
       ¬ ad.min_initial_client_balance_sat ≤ o.client_balance_sat →
        (o.validate_order ad).error_message =
          some "client_balance_sat < min_initial_client_balance_sat") ∧
      (ad.min_initial_lsp_balance_sat ≤ o.lsp_balance_sat →
       o.lsp_balance_sat ≤ ad.max_initial_lsp_balance_sat →
       ad.min_initial_client_balance_sat ≤ o.client_balance_sat →
       ¬ o.client_balance_sat ≤ ad.max_initial_client_balance_sat →
        (o.validate_order ad).error_message =
          some "client_balance_sat > max_initial_client_balance_sat") ∧
      (ad.min_initial_lsp_balance_sat ≤ o.lsp_balance_sat →
       o.lsp_balance_sat ≤ ad.max_initial_lsp_balance_sat →
       ad.min_initial_client_balance_sat ≤ o.client_balance_sat →
       o.client_balance_sat ≤ ad.max_initial_client_balance_sat →
       ¬ ad.min_channel_balance_sat ≤ o.client_balance_sat + o.lsp_balance_sat →
        (o.validate_order ad).error_message =
          some "client_balance_sat + lsp_balance_sat < min_channel_balance_sat") ∧
      (ad.min_initial_lsp_balance_sat ≤ o.lsp_balance_sat →
       o.lsp_balance_sat ≤ ad.max_initial_lsp_balance_sat →
       ad.min_initial_client_balance_sat ≤ o.client_balance_sat →
       o.client_balance_sat ≤ ad.max_initial_client_balance_sat →
       ad.min_channel_balance_sat ≤ o.client_balance_sat + o.lsp_balance_sat →
       ¬ o.client_balance_sat + o.lsp_balance_sat ≤ ad.max_channel_balance_sat →
        (o.validate_order ad).error_message =
          some "client_balance_sat + lsp_balance_sat > max_channel_balance_sat") ∧
      (ad.min_initial_lsp_balance_sat ≤ o.lsp_balance_sat →
       o.lsp_balance_sat ≤ ad.max_initial_lsp_balance_sat →
       ad.min_initial_client_balance_sat ≤ o.client_balance_sat →
       o.client_balance_sat ≤ ad.max_initial_client_balance_sat →
       ad.min_channel_balance_sat ≤ o.client_balance_sat + o.lsp_balance_sat →
       o.client_balance_sat + o.lsp_balance_sat ≤ ad.max_channel_balance_sat →
       ¬ ad.min_required_channel_confirmations ≤ o.required_channel_confirmations →
        (o.validate_order ad).error_message =
          some "required_channel_confirmations < min_required_channel_confirmations") ∧
      (ad.min_initial_lsp_balance_sat ≤ o.lsp_balance_sat →
       o.lsp_balance_sat ≤ ad.max_initial_lsp_balance_sat →
       ad.min_initial_client_balance_sat ≤ o.client_balance_sat →
       o.client_balance_sat ≤ ad.max_initial_client_balance_sat →
       ad.min_channel_balance_sat ≤ o.client_balance_sat + o.lsp_balance_sat →
       o.client_balance_sat + o.lsp_balance_sat ≤ ad.max_channel_balance_sat →
       ad.min_required_channel_confirmations ≤ o.required_channel_confirmations →
       ¬ ad.min_funding_confirms_within_blocks ≤ o.funding_confirms_within_blocks →
        (o.validate_order ad).error_message =
          some "funding_confirms_within_blocks < min_funding_confirms_within_blocks") ∧
      (ad.min_initial_lsp_balance_sat ≤ o.lsp_balance_sat →
       o.lsp_balance_sat ≤ ad.max_initial_lsp_balance_sat →
       ad.min_initial_client_balance_sat ≤ o.client_balance_sat →
       o.client_balance_sat ≤ ad.max_initial_client_balance_sat →
       ad.min_channel_balance_sat ≤ o.client_balance_sat + o.lsp_balance_sat →
       o.client_balance_sat + o.lsp_balance_sat ≤ ad.max_channel_balance_sat →
       ad.min_required_channel_confirmations ≤ o.required_channel_confirmations →
       ad.min_funding_confirms_within_blocks ≤ o.funding_confirms_within_blocks →
       ¬ o.channel_expiry_blocks ≤ ad.max_channel_expiry_blocks →
        (o.validate_order ad).error_message =
          some "channel_expiry_blocks > max_channel_expiry_blocks") := by
  intro o ad
  unfold Order.validate_order
  split_ifs with h1 h2 h3 h4 h5 h6 h7 h8 h9 <;>
    refine ⟨?_, ?_, ?_, ?_, ?_, ?_, ?_, ?_, ?_, ?_, ?_⟩ <;>
    first
      | exact iff_of_false (by simp) (by omega)
      | exact iff_of_true rfl (by omega)
      | (intros; rfl)
      | (intros; omega)
      | (intro h; simp at h)

/-- C3 (witness): at the S1 offer, orders at exactly min and max capacity
validate; capacity one below the minimum or one above the maximum is
reported on the capacity check with an OptionMismatch code. -/
theorem C3_validate_order_witness :
    (min_cap_order.validate_order s1_ad).is_valid = true ∧
    (max_cap_order.validate_order s1_ad).is_valid = true ∧
    (s2_order.validate_order s1_ad).error_message =
      some "client_balance_sat + lsp_balance_sat < min_channel_balance_sat" ∧
    (over_cap_order.validate_order c3_ad).error_message =
      some "client_balance_sat + lsp_balance_sat > max_channel_balance_sat" ∧
    (s2_order.validate_order s1_ad).error_code = some OrderErrorCode.option_mismatch := by
  refine ⟨?_, ?_, ?_, ?_, ?_⟩
  · exact (C3_validate_order min_cap_order s1_ad).1.mpr (by decide)
  · exact (C3_validate_order max_cap_order s1_ad).1.mpr (by decide)
  · exact (C3_validate_order s2_order s1_ad).2.2.2.2.2.2.1
      (by decide) (by decide) (by decide) (by decide) (by decide)
  · exact (C3_validate_order over_cap_order c3_ad).2.2.2.2.2.2.2.1
      (by decide) (by decide) (by decide) (by decide) (by decide) (by decide)
  · exact (C3_validate_order s2_order s1_ad).2.1 (by decide)

/-- C4 (code bug): two offer events for the same `(lsp_pubkey, offer_id)`
pair at timestamps T and T+1, the newer one with status=inactive.
`filter_ad_events` drops the inactive event BEFORE the newest-per-pair
selection, so the stale active event at T survives — the discovery set
for the pair is not empty, contradicting scenario S4 and the stated
purpose of `inactivate_ads` (its docstring relies on the later inactive
event superseding the ad for the customer). -/
theorem C4_filter_keeps_stale_active_event :
    filter_ad_events [c4_event_active, c4_event_inactive] = [c4_event_active] ∧
    c4_event_inactive.created_at = c4_event_active.created_at + 1 ∧
    dictGet c4_event_inactive.tags "status" = some "inactive" ∧
    ad_event_pair c4_event_inactive = ad_event_pair c4_event_active ∧
    ad_event_kept c4_event_active = true := by
  refine ⟨rfl, rfl, rfl, rfl, rfl⟩

/-- The channel-open listener issues a hodl-invoice cancel exactly when
the first terminal state the stream yields is UNKNOWN. -/
theorem cancel_mem_listener_iff (chan : List ChannelOpenUpdate) :
    TaskEvent.cancelIssued ∈ channel_open_listener chan ↔
      first_settling_state chan = some ChannelState.UNKNOWN := by
  induction chan with
  | nil => simp [channel_open_listener, first_settling_state]
  | cons u rest ih =>
    cases h : u.channel_state <;>
      simp [channel_open_listener, first_settling_state, h, ih]

/-- The channel-open listener writes the lease record exactly when the
first terminal state the stream yields is OPEN. -/
theorem lease_mem_listener_iff (chan : List ChannelOpenUpdate) :
    TaskEvent.leaseWritten ∈ channel_open_listener chan ↔
      first_settling_state chan = some ChannelState.OPEN := by
  induction chan with
  | nil => simp [channel_open_listener, first_settling_state]
  | cons u rest ih =>
    cases h : u.channel_state <;>
      simp [channel_open_listener, first_settling_state, h, ih]

/-- C6 (counterexample): an order task in which the invoice was created,
the customer paid (HOLD), and the channel-open stream yields one PENDING
update and then ends: the task terminates without recording the lease,
yet no cancel of the hodl invoice has been issued. -/
theorem C6_counterexample :
    TaskEvent.invoiceCreated ∈ handle_channel_request c6_env_pending ∧
    TaskEvent.leaseWritten ∉ handle_channel_request c6_env_pending ∧
    TaskEvent.cancelIssued ∉ handle_channel_request c6_env_pending := by
  decide

/-- C6 (amended): in every order task that passes verification (so a hodl
invoice is created), a cancel of that invoice is issued exactly when the
customer paid (HOLD observed) and the channel-open stream then yields
UNKNOWN before any OPEN; the lease record is written exactly when the
stream yields OPEN first.  In the other non-lease terminations (invoice
subscription closing without HOLD, or the channel stream ending without
OPEN/UNKNOWN) the task ends with no cancel issued. -/
theorem C6_cancel_policy :
    ∀ env : OrderEnv, verify_order_and_connection env = .ok →
      TaskEvent.invoiceCreated ∈ handle_channel_request env ∧
      (TaskEvent.cancelIssued ∈ handle_channel_request env ↔
        payment_listener env.invoice_states = true ∧
        first_settling_state env.channel_updates = some ChannelState.UNKNOWN) ∧
      (TaskEvent.leaseWritten ∈ handle_channel_request env ↔
        payment_listener env.invoice_states = true ∧
        first_settling_state env.channel_updates = some ChannelState.OPEN) := by
  intro env h
  unfold handle_channel_request
  rw [h]
  unfold process_payment_and_channel_open
  cases hp : payment_listener env.invoice_states <;>
    simp [hp, cancel_mem_listener_iff, lease_mem_listener_iff]

/-- C6 (witness): scenario S5 — after HOLD the channel stream yields
PENDING then UNKNOWN: the cancel is issued and the lease record is not
written. -/
theorem C6_cancel_policy_witness :
    TaskEvent.cancelIssued ∈ handle_channel_request c6_env_unknown ∧
    TaskEvent.leaseWritten ∉ handle_channel_request c6_env_unknown := by
  have h := C6_cancel_policy c6_env_unknown (by decide)
  exact ⟨h.2.1.mpr (by decide), fun hm => absurd (h.2.2.mp hm) (by decide)⟩

/-- C7 (counterexample): an order that fails offer validation while the
UTXO fetch also fails is refused with code OptionMismatch, not
invalid_params — the validation check precedes the solvency check, so
"invalid_params exactly when the UTXO fetch fails or the spendable
amount is short" does not hold unconditionally. -/
theorem C7_counterexample :
    verify_order_and_connection c7_env =
      .err { code := .option_mismatch,
             error_message :=
               some "client_balance_sat + lsp_balance_sat < min_channel_balance_sat" } ∧
    c7_env.utxoFetch = none ∧
    OrderErrorCode.option_mismatch ≠ OrderErrorCode.invalid_params := by
  decide

/-- C7 (amended): for orders that pass offer validation,
`verify_order_and_connection` returns invalid_params exactly when the
UTXO fetch fails or `round(spendable - reserve - (10.5 + 2*31 +
68*num_utxos)*fee_rate) < total_capacity`; whenever verification returns
an error response the task sends only the OrderError DM and creates no
hodl invoice; a connection failure aborts the task (AttributeError on
the nonexistent `order.pubkey_uri`) with nothing sent and, again, no
invoice. -/
theorem C7_verification_errors :
    ∀ env : OrderEnv,
      ((env.order.validate_order env.ad).is_valid = true →
        ((∃ r, verify_order_and_connection env = .err r ∧
            r.code = OrderErrorCode.invalid_params) ↔
          (env.utxoFetch = none ∨
            ∃ utxos, env.utxoFetch = some utxos ∧
              pyRound ((spendable_amount utxos : PyRat) - (env.required_reserve : PyRat) -
                ((10.5 : PyRat) + 2 * 31 + 68 * (num_utxos utxos : PyRat)) * env.sat_per_vb) <
                env.order.total_capacity))) ∧
      (∀ r, verify_order_and_connection env = .err r →
        handle_channel_request env = [TaskEvent.dmOrderError]) ∧
      (verify_order_and_connection env = .attrError → handle_channel_request env = []) ∧
      (verify_order_and_connection env ≠ .ok →
        TaskEvent.invoiceCreated ∉ handle_channel_request env) := by
  intro env
  refine ⟨?_, ?_, ?_, ?_⟩
  · intro hval
    unfold verify_order_and_connection
    simp only [hval, Bool.true_eq_false, if_false]
    cases hu : env.utxoFetch with
    | none =>
      exact iff_of_true ⟨_, rfl, rfl⟩ (Or.inl rfl)
    | some utxos =>
      by_cases hs : pyRound ((spendable_amount utxos : PyRat) - (env.required_reserve : PyRat) -
          ((10.5 : PyRat) + 2 * 31 + 68 * (num_utxos utxos : PyRat)) * env.sat_per_vb) <
          env.order.total_capacity
      · simp only [hs, if_true]
        exact iff_of_true ⟨_, rfl, rfl⟩ (Or.inr ⟨utxos, rfl, hs⟩)
      · simp only [hs, if_false]
        have hrhs : ¬ (some utxos = none ∨
            ∃ us, some utxos = some us ∧
              pyRound ((spendable_amount us : PyRat) - (env.required_reserve : PyRat) -
                ((10.5 : PyRat) + 2 * 31 + 68 * (num_utxos us : PyRat)) * env.sat_per_vb) <
                env.order.total_capacity) := by
          rintro (h | ⟨us, hus, hlt⟩)
          · exact Option.noConfusion h
          · cases Option.some.injEq .. ▸ hus with
            | refl => exact hs hlt
        by_cases hc : (connect_peer_classify env.order.target_pubkey_uri env.connectResult).connected = false
        · simp only [hc, if_true]
          exact iff_of_false (by rintro ⟨r, hr, _⟩; cases hr) hrhs
        · simp only [hc, if_false]
          exact iff_of_false (by rintro ⟨r, hr, _⟩; cases hr) hrhs
  · intro r hr
    unfold handle_channel_request
    rw [hr]
  · intro hr
    unfold handle_channel_request
    rw [hr]
  · intro hne
    unfold handle_channel_request
    cases hv : verify_order_and_connection env with
    | ok => exact absurd hv hne
    | err r => simp
    | attrError => simp

/-- C7 (witness): a valid order whose UTXO fetch fails is refused with
invalid_params, and the failed-verification task sends only the
OrderError DM with no invoice created. -/
theorem C7_verification_errors_witness :
    (∃ r, verify_order_and_connection c7_env_utxofail = .err r ∧
      r.code = OrderErrorCode.invalid_params) ∧
    handle_channel_request c7_env_utxofail = [TaskEvent.dmOrderError] ∧
    TaskEvent.invoiceCreated ∉ handle_channel_request c7_env_utxofail := by
  have h := C7_verification_errors c7_env_utxofail
  refine ⟨(h.1 (by decide)).mpr (Or.inl (by decide)), ?_, ?_⟩
  · exact h.2.1 { code := .invalid_params, error_message := some buyer_msg } (by decide)
  · exact h.2.2.2 (by decide)

/-- C8 (counterexample): with the S1 offer (min 1M, max 10M), the
default bucket 5000000 and a wallet whose spendable amount is 3050000
(inside [min, bucket)), the claimed "published max is spendable rounded
down to a multiple of channel_max_bucket" fails: the rounded value is 0,
which `publish_ad`'s truthiness gate (`if not adjusted_max_capacity`)
treats like None, so nothing is published and the live ad is
deactivated. -/
theorem C8_counterexample :
    ¬ spendable_amount c8_utxos - 0 - spend_all_cost c8_utxos 0 2 <
        s1_ad.min_channel_balance_sat ∧
    spendable_amount c8_utxos - 0 - spend_all_cost c8_utxos 0 2 <
        s1_ad.max_channel_balance_sat ∧
    spendable_amount c8_utxos - 0 - spend_all_cost c8_utxos 0 2 -
      (spendable_amount c8_utxos - 0 - spend_all_cost c8_utxos 0 2) % 5000000 = 0 ∧
    publish_ad_decision s1_ad c8_utxos 0 0 5000000 false true = .notPublished true ∧
    PublishOutcome.notPublished true ≠ .published 0 := by
  decide

/-- C8 (amended): ad publication adjusts the maximum capacity from live
wallet state: spendable = (sum of UTXOs with >= 3 confirmations) -
reserve - round((10.5 + 2*31 + sum of per-input vbytes)*fee_rate) (with
68 vB for p2wpkh/nested, 57.5 for taproot, 0 otherwise, per
`Utxo.spend_cost_vb`); below the ad minimum nothing is published and a
live ad is deactivated; with `sum_utxos_as_max_capacity` the published
max is spendable; otherwise when spendable is below the configured max
it is rounded down to a multiple of `channel_max_bucket` (5948617 with
bucket 5000000 gives 5000000) — in each publishing branch UNLESS the
adjusted value is 0 (Python truthiness in `publish_ad`), in which case
the ad is again not published and a live ad is deactivated. -/
theorem C8_adjust_ad_max_capacity :
    ∀ (ad : Ad) (utxos : List Utxo) (required_reserve : ℤ) (sat_per_vb : PyRat)
      (channel_max_bucket : ℤ) (sum_utxos_as_max_capacity hasActiveAds : Bool),
      spend_all_cost utxos sat_per_vb 2 =
        pyRound (((10.5 : PyRat) + 2 * 31 + sumPyRat (utxos.map Utxo.spend_cost_vb)) *
          sat_per_vb) ∧
      (spendable_amount utxos - required_reserve - spend_all_cost utxos sat_per_vb 2 <
          ad.min_channel_balance_sat →
        publish_ad_decision ad utxos required_reserve sat_per_vb channel_max_bucket
          sum_utxos_as_max_capacity hasActiveAds = .notPublished hasActiveAds) ∧
      (¬ spendable_amount utxos - required_reserve - spend_all_cost utxos sat_per_vb 2 <
          ad.min_channel_balance_sat →
       sum_utxos_as_max_capacity = true →
        publish_ad_decision ad utxos required_reserve sat_per_vb channel_max_bucket
          sum_utxos_as_max_capacity hasActiveAds =
          (if spendable_amount utxos - required_reserve - spend_all_cost utxos sat_per_vb 2 = 0
           then .notPublished hasActiveAds
           else .published (spendable_amount utxos - required_reserve -
             spend_all_cost utxos sat_per_vb 2))) ∧
      (¬ spendable_amount utxos - required_reserve - spend_all_cost utxos sat_per_vb 2 <
          ad.min_channel_balance_sat →
       sum_utxos_as_max_capacity = false →
       spendable_amount utxos - required_reserve - spend_all_cost utxos sat_per_vb 2 <
          ad.max_channel_balance_sat →
        publish_ad_decision ad utxos required_reserve sat_per_vb channel_max_bucket
          sum_utxos_as_max_capacity hasActiveAds =
          (if spendable_amount utxos - required_reserve - spend_all_cost utxos sat_per_vb 2 -
              (spendable_amount utxos - required_reserve -
                spend_all_cost utxos sat_per_vb 2) % channel_max_bucket = 0
           then .notPublished hasActiveAds
           else .published (spendable_amount utxos - required_reserve -
             spend_all_cost utxos sat_per_vb 2 -
             (spendable_amount utxos - required_reserve -
               spend_all_cost utxos sat_per_vb 2) % channel_max_bucket))) ∧
      (¬ spendable_amount utxos - required_reserve - spend_all_cost utxos sat_per_vb 2 <
          ad.min_channel_balance_sat →
       sum_utxos_as_max_capacity = false →
       ¬ spendable_amount utxos - required_reserve - spend_all_cost utxos sat_per_vb 2 <
          ad.max_channel_balance_sat →
        publish_ad_decision ad utxos required_reserve sat_per_vb channel_max_bucket
          sum_utxos_as_max_capacity hasActiveAds =
          (if ad.max_channel_balance_sat = 0 then .notPublished hasActiveAds
           else .published ad.max_channel_balance_sat)) ∧
      ((5948617 : ℤ) - 5948617 % 5000000 = 5000000) := by
  intro ad utxos required_reserve sat_per_vb channel_max_bucket flag active
  refine ⟨rfl, ?_, ?_, ?_, ?_, by decide⟩
  · intro h
    unfold publish_ad_decision adjust_ad_max_capacity
    simp only [if_pos h]
  · intro h hflag
    unfold publish_ad_decision adjust_ad_max_capacity
    simp only [if_neg h, hflag, if_true]
  · intro h hflag hlt
    unfold publish_ad_decision adjust_ad_max_capacity
    simp only [if_neg h, hflag, Bool.false_eq_true, if_false, if_pos hlt]
  · intro h hflag hge
    unfold publish_ad_decision adjust_ad_max_capacity
    simp only [if_neg h, hflag, Bool.false_eq_true, if_false, if_neg hge]

/-- C8 (witness): scenario S6 — three 2M-sat confirmed P2WPKH UTXOs,
reserve 50000, fee rate 5 sat/vB, bucket 5000000: the spend-all cost is
round(276.5*5) = round(1382.5) = 1382 (round-half-to-even), spendable is
5948618, the published maximum capacity is 5000000; and for the 3.05M
wallet the zero-rounded capacity suppresses publication and deactivates
the live ad. -/
theorem C8_adjust_ad_max_capacity_witness :
    spend_all_cost s6_utxos 5 2 = 1382 ∧
    spendable_amount s6_utxos - 50000 - spend_all_cost s6_utxos 5 2 = 5948618 ∧
    publish_ad_decision s1_ad s6_utxos 50000 5 5000000 false false = .published 5000000 ∧
    publish_ad_decision s1_ad c8_utxos 0 0 5000000 false true = .notPublished true := by
  have h := C8_adjust_ad_max_capacity s1_ad s6_utxos 50000 5 5000000 false false
  have h2 := C8_adjust_ad_max_capacity s1_ad c8_utxos 0 0 5000000 false true
  refine ⟨by decide, by decide, ?_, ?_⟩
  · have h3 := h.2.2.2.1 (by decide) rfl (by decide)
    rw [h3]
    decide
  · have h4 := h2.2.2.2.1 (by decide) rfl (by decide)
    rw [h4]
    decide

/-- C9 (counterexample): the peer connection the orchestrator requests is
permanent, not non-permanent — `connect_peer` defaults `retry_connect` to
True and forwards it as the LND `perm` flag, and the orchestrator call
site passes no override. -/
theorem C9_counterexample :
    (connect_peer_request "0270f449@127.0.0.1:9735" connect_peer_default_timeout
      connect_peer_default_retry).perm = true ∧
    connect_peer_default_timeout = 15 := by
  decide

/-- C9 (amended): before invoicing the orchestrator attempts a PERMANENT
(`perm=True`, i.e. retrying) peer connection to the target node URI of the order
URI with a 15-second timeout; an "already connected to peer" error body
is treated as success and every other error body (timeout, EOF,
anything else) as failure; a connection failure ends the order with no
invoice — though instead of the claimed OrderError `connection_error`
DM, the task aborts on the AttributeError raised while formatting the
error message (`order.pubkey_uri` does not exist), so nothing is sent. -/
theorem C9_peer_connection :
    ∀ (uri msg : String) (env : OrderEnv) (utxos : List Utxo),
      ((connect_peer_request uri connect_peer_default_timeout
          connect_peer_default_retry).perm = true ∧
       (connect_peer_request uri connect_peer_default_timeout
          connect_peer_default_retry).timeout = 15) ∧
      (strContains msg "already connected to peer" = true →
        (connect_peer_classify uri (.errorResp msg)).connected = true) ∧
      (strContains msg "already connected to peer" = false →
        (connect_peer_classify uri (.errorResp msg)).connected = false) ∧
      (connect_peer_classify uri .exn).connected = false ∧
      (connect_peer_classify uri .ok).connected = true ∧
      ((env.order.validate_order env.ad).is_valid = true →
       env.utxoFetch = some utxos →
       ¬ pyRound ((spendable_amount utxos : PyRat) - (env.required_reserve : PyRat) -
           ((10.5 : PyRat) + 2 * 31 + 68 * (num_utxos utxos : PyRat)) * env.sat_per_vb) <
           env.order.total_capacity →
       (connect_peer_classify env.order.target_pubkey_uri env.connectResult).connected = false →
        verify_order_and_connection env = .attrError ∧
        handle_channel_request env = []) := by
  intro uri msg env utxos
  refine ⟨⟨rfl, rfl⟩, ?_, ?_, rfl, rfl, ?_⟩
  · intro h
    simp [connect_peer_classify, h]
  · intro h
    simp only [connect_peer_classify, h, Bool.false_eq_true, if_false]
    split_ifs <;> rfl
  · intro hval hu hs hc
    have hverify : verify_order_and_connection env = .attrError := by
      unfold verify_order_and_connection
      simp only [hval, Bool.true_eq_false, if_false, hu, if_neg hs, if_pos hc]
    refine ⟨hverify, ?_⟩
    unfold handle_channel_request
    rw [hverify]

/-- C9 (witness): a connect attempt answered with a timeout error body is
classified as a failure, and the order task ends with nothing sent and
no invoice created. -/
theorem C9_peer_connection_witness :
    strContains "dial tcp: i/o timeout" "already connected to peer" = false ∧
    verify_order_and_connection c9_env = .attrError ∧
    handle_channel_request c9_env = [] := by
  have h := C9_peer_connection "0270f449@127.0.0.1:9735" "dial tcp: i/o timeout"
    c9_env [big_utxo]
  have h6 := h.2.2.2.2.2 (by decide) (by decide) (by decide) (by decide)
  exact ⟨by decide, h6.1, h6.2⟩

/-- C10: `OrderResponse.from_order` never overrides the class-level
`order_id`/`created_at` defaults (the field-copy comprehension only
copies keys of `order.model_dump()`, which has neither), and those
defaults are single values fixed when the class object is created: any
two responses built in one process carry the same order id and the same
creation timestamp. -/
theorem C10_from_order_constant_ids :
    ∀ (defaults : OrderResponseClassDefaults) (o1 o2 : Order) (p1 p2 : Bolt11)
      (r1 r2 : OrderResponse),
      OrderResponse.from_order defaults o1 p1 = some r1 →
      OrderResponse.from_order defaults o2 p2 = some r2 →
      r1.order_id = defaults.order_id ∧ r1.created_at = defaults.created_at ∧
      r1.order_id = r2.order_id ∧ r1.created_at = r2.created_at := by
  have key : ∀ (defaults : OrderResponseClassDefaults) (o : Order) (p : Bolt11)
      (r : OrderResponse), OrderResponse.from_order defaults o p = some r →
      r.order_id = defaults.order_id ∧ r.created_at = defaults.created_at := by
    intro defaults o p r h
    simp only [OrderResponse.from_order] at h
    rw [show (if orderFieldNames.contains "token" then orderAttrOptStr o "token" else none) =
        some o.token from by rw [if_pos (by decide)]; rfl] at h
    cases ht : o.token with
    | none => rw [ht] at h; simp at h
    | some s =>
      rw [ht] at h
      simp only [Option.some.injEq] at h
      subst h
      exact ⟨rfl, rfl⟩
  intro defaults o1 o2 p1 p2 r1 r2 h1 h2
  obtain ⟨ha1, ha2⟩ := key defaults o1 p1 r1 h1
  obtain ⟨hb1, hb2⟩ := key defaults o2 p2 r2 h2
  exact ⟨ha1, ha2, ha1.trans hb1.symm, ha2.trans hb2.symm⟩

/-- C10 (witness): two distinct concrete orders with distinct payments
yield responses with the same order id and creation timestamp, both
equal to the class defaults. -/
theorem C10_from_order_constant_ids_witness :
    c10_resp1.order_id = c10_defaults.order_id ∧
    c10_resp1.created_at = c10_defaults.created_at ∧
    c10_resp1.order_id = c10_resp2.order_id ∧
    c10_resp1.created_at = c10_resp2.created_at := by
  exact C10_from_order_constant_ids c10_defaults s1_order c10_order2 c10_pay1 c10_pay2
    c10_resp1 c10_resp2 (by decide) (by decide)

/-- Parsing inverts printing for a single decimal digit. -/
theorem charDigit_digitChar (d : ℕ) (h : d < 10) : charDigit (digitChar d) = some d := by
  interval_cases d <;> decide

/-- The accumulating parse splits over list append. -/
theorem parseDigitsAcc_append (xs ys : List Char) (acc : ℕ) :
    parseDigitsAcc acc (xs ++ ys) =
      match parseDigitsAcc acc xs with
      | none => none
      | some m => parseDigitsAcc m ys := by
  induction xs generalizing acc with
  | nil => simp [parseDigitsAcc]
  | cons c rest ih =>
    simp only [List.cons_append, parseDigitsAcc]
    cases charDigit c with
    | none => rfl
    | some d => simp [ih]

/-- Parsing the digit characters of `n` recovers `n` (with the
accumulator contributing at the left). -/
theorem natToCharsAux_parse (fuel : ℕ) :
    ∀ n acc : ℕ, n ≤ fuel →
      parseDigitsAcc acc (natToCharsAux fuel n) =
        some (acc * 10 ^ (natToCharsAux fuel n).length + n) := by
  induction fuel with
  | zero =>
    intro n acc h
    have hn : n = 0 := by omega
    subst hn
    simp [natToCharsAux, parseDigitsAcc, charDigit_digitChar 0 (by norm_num), Nat.mul_comm]
  | succ fuel ih =>
    intro n acc h
    by_cases hn : n < 10
    · simp [natToCharsAux, hn, parseDigitsAcc, charDigit_digitChar n hn, Nat.mul_comm]
    · have hdiv : n / 10 ≤ fuel := by omega
      have hmod : n % 10 < 10 := Nat.mod_lt _ (by norm_num)
      simp only [natToCharsAux, if_neg hn]
      rw [parseDigitsAcc_append, ih (n / 10) acc hdiv]
      simp only [parseDigitsAcc, charDigit_digitChar _ hmod, List.length_append,
        List.length_cons, List.length_nil]
      rw [pow_succ]
      congr 1
      have := Nat.div_add_mod n 10
      set L := (natToCharsAux fuel (n / 10)).length
      ring_nf
      omega

/-- The digit-character list of a number is never empty. -/
theorem natToCharsAux_ne_nil (fuel n : ℕ) : natToCharsAux fuel n ≠ [] := by
  cases fuel with
  | zero => simp [natToCharsAux]
  | succ fuel =>
    by_cases hn : n < 10 <;> simp [natToCharsAux, hn]

/-- Full-precision inverse: `parseDigitList` recovers `n` from its
printed digits. -/
theorem parseDigitList_natToChars (n : ℕ) : parseDigitList (natToCharsAux n n) = some n := by
  have h := natToCharsAux_parse n n 0 le_rfl
  simp only [Nat.zero_mul, Nat.zero_add] at h
  cases hc : natToCharsAux n n with
  | nil => exact absurd hc (natToCharsAux_ne_nil n n)
  | cons c cs =>
    rw [hc] at h
    simpa [parseDigitList] using h

/-- The head of the printed digit list is a digit character. -/
theorem natToCharsAux_head (fuel : ℕ) :
    ∀ n : ℕ, ∃ d, d < 10 ∧ (natToCharsAux fuel n).head? = some (digitChar d) := by
  induction fuel with
  | zero =>
    intro n
    exact ⟨n % 10, Nat.mod_lt _ (by norm_num), rfl⟩
  | succ fuel ih =>
    intro n
    by_cases hn : n < 10
    · exact ⟨n, hn, by simp [natToCharsAux, hn]⟩
    · obtain ⟨d, hd, hh⟩ := ih (n / 10)
      refine ⟨d, hd, ?_⟩
      simp only [natToCharsAux, if_neg hn]
      cases hc : natToCharsAux fuel (n / 10) with
      | nil => exact absurd hc (natToCharsAux_ne_nil fuel (n / 10))
      | cons c cs =>
        rw [hc] at hh
        simpa using hh

/-- Python `int(str(n))` round trip at the embedding level. -/
theorem parseIntStr_pyIntRepr (n : ℤ) : parseIntStr (pyIntRepr n) = some n := by
  by_cases hn : n < 0
  · have hlist : (pyIntRepr n).toList = '-' :: natToCharsAux n.natAbs n.natAbs := by
      unfold pyIntRepr
      rw [if_pos hn]
      rfl
    unfold parseIntStr
    rw [hlist]
    simp [parseDigitList_natToChars]
    rw [abs_of_neg hn, neg_neg]
  · have hlist : (pyIntRepr n).toList = natToCharsAux n.natAbs n.natAbs := by
      unfold pyIntRepr
      rw [if_neg hn]
      rfl
    obtain ⟨d, hd, hh⟩ := natToCharsAux_head n.natAbs n.natAbs
    unfold parseIntStr
    rw [hlist]
    cases hc : natToCharsAux n.natAbs n.natAbs with
    | nil => exact absurd hc (natToCharsAux_ne_nil _ _)
    | cons c cs =>
      rw [hc] at hh
      simp only [List.head?_cons, Option.some.injEq] at hh
      subst hh
      have hne1 : digitChar d ≠ '-' := by interval_cases d <;> decide
      have hne2 : digitChar d ≠ '+' := by interval_cases d <;> decide
      simp only [hne1, if_false, hne2]
      rw [← hc, parseDigitList_natToChars]
      simp
      omega

/-- A raw value satisfying `goodRaw` decodes to itself as a string. -/
theorem parseRaw_of_goodRaw (s : String) (h : goodRaw s) : parseRaw s = PyVal.vStr s := by
  unfold parseRaw
  rw [if_neg, if_neg h.1]
  rintro ⟨-, hh | hh⟩
  · exact h.2.1 hh
  · exact h.2.2 hh

/-- Printed integers are `goodRaw`: they never open a JSON container and
are never the literal "null". -/
theorem goodRaw_pyIntRepr (n : ℤ) : goodRaw (pyIntRepr n) := by
  have hhead : (pyIntRepr n).toList.head? = some '-' ∨
      ∃ d, d < 10 ∧ (pyIntRepr n).toList.head? = some (digitChar d) := by
    by_cases hn : n < 0
    · left
      unfold pyIntRepr
      rw [if_pos hn]
      rfl
    · right
      obtain ⟨d, hd, hh⟩ := natToCharsAux_head n.natAbs n.natAbs
      refine ⟨d, hd, ?_⟩
      unfold pyIntRepr
      rw [if_neg hn]
      exact hh
  refine ⟨?_, ?_, ?_⟩
  · intro he
    rw [he] at hhead
    rcases hhead with hh | ⟨d, hd, hh⟩
    · exact absurd hh (by decide)
    · revert hh
      interval_cases d <;> decide
  · intro hh0
    rcases hhead with hh | ⟨d, hd, hh⟩
    · rw [hh0] at hh
      exact absurd hh (by decide)
    · rw [hh0] at hh
      revert hh
      interval_cases d <;> decide
  · intro hh0
    rcases hhead with hh | ⟨d, hd, hh⟩
    · rw [hh0] at hh
      exact absurd hh (by decide)
    · rw [hh0] at hh
      revert hh
      interval_cases d <;> decide

/-- Decoding then coercing a printed integer recovers it. -/
theorem coerceInt_roundtrip (n : ℤ) : coerceInt (parseRaw (pyIntRepr n)) = some n := by
  rw [parseRaw_of_goodRaw _ (goodRaw_pyIntRepr n)]
  simp [coerceInt, parseIntStr_pyIntRepr]

/-- Coercing a decoded string field recovers it. -/
theorem coerceStr_roundtrip (s : String) (h : goodRaw s) : coerceStr (parseRaw s) = some s := by
  rw [parseRaw_of_goodRaw s h]
  rfl

/-- Encoding and decoding an `Optional[str]` field recovers it when a
present value is `goodRaw`. -/
theorem coerceOptStr_roundtrip (t : Option String) (h : ∀ s, t = some s → goodRaw s) :
    coerceOptStr (parseRaw (dumpOptStr t)) = some t := by
  cases t with
  | none => rfl
  | some s =>
    rw [show dumpOptStr (some s) = s from rfl, parseRaw_of_goodRaw s (h s rfl)]
    rfl

/-- Encoding and decoding a bool field recovers it. -/
theorem coerceBool_roundtrip (b : Bool) :
    coerceBool (parseRaw (if b then "True" else "False")) = some b := by
  cases b <;> rfl

/-- Encoding and decoding the IntEnum `code` field recovers it. -/
theorem coerceErrorCode_roundtrip (c : OrderErrorCode) :
    coerceErrorCode (parseRaw (pyIntRepr c.value)) = some c := by
  unfold coerceErrorCode
  rw [coerceInt_roundtrip c.value]
  cases c <;> rfl

/-- Whitespace skipping leaves a list alone when its head is not json
whitespace. -/
theorem skipWs_not_ws (c : Char) (cs : List Char)
    (h : ¬(c = ' ' ∨ c = '\t' ∨ c = '\n' ∨ c = '\r')) : skipWs (c :: cs) = c :: cs := by
  simp only [skipWs, if_neg h]

/-- A character the escape passes through encodes as itself. -/
theorem escapeJChar_of_safe (c : Char) (h : jsonSafeChar c = true) : escapeJChar c = [c] := by
  have h3 := of_decide_eq_true h
  have hge : 32 ≤ c.toNat := h3.1.1
  have hn : c ≠ '\n' := by intro he; rw [he] at hge; exact absurd hge (by decide)
  have ht : c ≠ '\t' := by intro he; rw [he] at hge; exact absurd hge (by decide)
  have hr : c ≠ '\r' := by intro he; rw [he] at hge; exact absurd hge (by decide)
  have h8 : ¬(c.toNat = 8) := by omega
  have h12 : ¬(c.toNat = 12) := by omega
  unfold escapeJChar
  rw [if_neg h3.2.1, if_neg h3.2.2, if_neg hn, if_neg ht, if_neg hr, if_neg h8, if_neg h12,
      if_pos h3.1]

/-- A string of safe characters passes through the json escape
unchanged. -/
theorem escapeJChars_of_safe (cs : List Char) (h : cs.all jsonSafeChar = true) :
    escapeJChars cs = cs := by
  induction cs with
  | nil => rfl
  | cons c cs ih =>
    simp only [List.all_cons, Bool.and_eq_true] at h
    have h2 := ih h.2
    simp only [escapeJChars] at h2 ⊢
    simp only [List.map_cons, List.flatten_cons, escapeJChar_of_safe c h.1, h2,
      List.singleton_append]

/-- Parsing a json string literal body of safe characters recovers the
characters up to the closing quote. -/
theorem parseJStr_safe (cs : List Char) :
    cs.all jsonSafeChar = true →
    ∀ (rest : List Char) (fuel : ℕ), cs.length + 1 ≤ fuel →
      parseJStr fuel (cs ++ '"' :: rest) = some (⟨cs⟩, rest) := by
  induction cs with
  | nil =>
    intro _ rest fuel hf
    cases fuel with
    | zero => exact absurd hf (by omega)
    | succ f => simp [parseJStr]
  | cons c cs ih =>
    intro h rest fuel hf
    simp only [List.all_cons, Bool.and_eq_true] at h
    have hc := of_decide_eq_true h.1
    cases fuel with
    | zero => exact absurd hf (by simp at hf)
    | succ f =>
      have hrec := ih h.2 rest f (by simp only [List.length_cons] at hf; omega)
      simp only [List.cons_append, parseJStr, if_neg hc.2.1, if_neg hc.2.2, List.append_eq, hrec]
      rfl

/-- Every character of the printed digit list is a decimal digit. -/
theorem natToCharsAux_all_digits (fuel : ℕ) :
    ∀ n c, c ∈ natToCharsAux fuel n → (charDigit c).isSome = true := by
  induction fuel with
  | zero =>
    intro n c hc
    simp only [natToCharsAux, List.mem_singleton] at hc
    subst hc
    rw [charDigit_digitChar _ (Nat.mod_lt _ (by norm_num))]
    rfl
  | succ fuel ih =>
    intro n c hc
    by_cases hn : n < 10
    · simp only [natToCharsAux, if_pos hn, List.mem_singleton] at hc
      subst hc
      rw [charDigit_digitChar _ hn]
      rfl
    · simp only [natToCharsAux, if_neg hn, List.mem_append, List.mem_singleton] at hc
      rcases hc with hc | hc
      · exact ih _ _ hc
      · subst hc
        rw [charDigit_digitChar _ (Nat.mod_lt _ (by norm_num))]
        rfl

/-- Taking while a predicate holds distributes over an append whose left
part satisfies the predicate throughout. -/
theorem takeWhile_append_all (p : Char → Bool) (xs ys : List Char)
    (h : ∀ c ∈ xs, p c = true) : (xs ++ ys).takeWhile p = xs ++ ys.takeWhile p := by
  induction xs with
  | nil => simp
  | cons c cs ih =>
    simp [List.takeWhile_cons, h c (List.mem_cons_self c cs),
      ih (fun d hd => h d (List.mem_cons_of_mem c hd))]

/-- Dropping while a predicate holds skips an all-satisfying left part of
an append. -/
theorem dropWhile_append_all (p : Char → Bool) (xs ys : List Char)
    (h : ∀ c ∈ xs, p c = true) : (xs ++ ys).dropWhile p = ys.dropWhile p := by
  induction xs with
  | nil => simp
  | cons c cs ih =>
    simp only [List.cons_append, List.dropWhile_cons, h c (List.mem_cons_self c cs)]
    exact ih (fun d hd => h d (List.mem_cons_of_mem c hd))

/-- Reduction of the json number grammar at a minus sign. -/
theorem parseJNum_neg_head (X : List Char) :
    parseJNum ('-' :: X) =
      match parseDigitList (X.takeWhile (fun c => (charDigit c).isSome)) with
      | none => none
      | some k =>
        match (X.dropWhile (fun c => (charDigit c).isSome)).head? with
        | some c => if c = '.' ∨ c = 'e' ∨ c = 'E' then none
                    else some (-(k : ℤ), X.dropWhile (fun c => (charDigit c).isSome))
        | none => some (-(k : ℤ), X.dropWhile (fun c => (charDigit c).isSome)) := rfl

/-- Reduction of the json number grammar when the text does not start
with a minus sign. -/
theorem parseJNum_not_minus (X : List Char) (hne : ¬(X.head? = some '-')) :
    parseJNum X =
      match parseDigitList (X.takeWhile (fun c => (charDigit c).isSome)) with
      | none => none
      | some k =>
        match (X.dropWhile (fun c => (charDigit c).isSome)).head? with
        | some c => if c = '.' ∨ c = 'e' ∨ c = 'E' then none
                    else some ((k : ℤ), X.dropWhile (fun c => (charDigit c).isSome))
        | none => some ((k : ℤ), X.dropWhile (fun c => (charDigit c).isSome)) := by
  simp only [parseJNum, decide_eq_false hne, Bool.false_eq_true, if_false]

/-- The json number grammar recovers a printed integer when the
remainder opens with a separator (or is empty). -/
theorem parseJNum_pyIntRepr (n : ℤ) (rest : List Char)
    (h : rest = [] ∨ rest.head? = some ',' ∨ rest.head? = some ']' ∨ rest.head? = some '}') :
    parseJNum ((pyIntRepr n).toList ++ rest) = some (n, rest) := by
  have hdig : ∀ c ∈ natToCharsAux n.natAbs n.natAbs, ((charDigit c).isSome : Bool) = true :=
    fun c hc => natToCharsAux_all_digits _ _ c hc
  have htake : rest.takeWhile (fun c => (charDigit c).isSome) = [] := by
    rcases h with rfl | hh | hh | hh
    · rfl
    all_goals
      cases rest with
      | nil => rfl
      | cons c cs =>
        simp only [List.head?_cons, Option.some.injEq] at hh
        subst hh
        rfl
  have hdrop : rest.dropWhile (fun c => (charDigit c).isSome) = rest := by
    rcases h with rfl | hh | hh | hh
    · rfl
    all_goals
      cases rest with
      | nil => rfl
      | cons c cs =>
        simp only [List.head?_cons, Option.some.injEq] at hh
        subst hh
        rfl
  by_cases hn : n < 0
  · have hlist : (pyIntRepr n).toList = '-' :: natToCharsAux n.natAbs n.natAbs := by
      unfold pyIntRepr
      rw [if_pos hn]
      rfl
    have habs : ((n.natAbs : ℤ)) = -n := by omega
    rw [hlist, List.cons_append, parseJNum_neg_head,
      takeWhile_append_all _ _ _ hdig, dropWhile_append_all _ _ _ hdig, htake, hdrop,
      List.append_nil, parseDigitList_natToChars]
    rcases h with rfl | hh | hh | hh
    · simp only [List.head?_nil]
      rw [habs, neg_neg]
    all_goals
      simp only [hh]
      rw [if_neg (by decide), habs, neg_neg]
  · have hlist : (pyIntRepr n).toList = natToCharsAux n.natAbs n.natAbs := by
      unfold pyIntRepr
      rw [if_neg hn]
      rfl
    obtain ⟨d, hd, hh0⟩ := natToCharsAux_head n.natAbs n.natAbs
    have hhead : (natToCharsAux n.natAbs n.natAbs ++ rest).head? = some (digitChar d) := by
      cases hc : natToCharsAux n.natAbs n.natAbs with
      | nil => exact absurd hc (natToCharsAux_ne_nil _ _)
      | cons c cs =>
        rw [hc] at hh0
        simp only [List.head?_cons] at hh0
        simp [hh0]
    have hne : ¬((natToCharsAux n.natAbs n.natAbs ++ rest).head? = some '-') := by
      rw [hhead]
      simp only [Option.some.injEq]
      intro he
      revert he
      interval_cases d <;> decide
    have habs : ((n.natAbs : ℤ)) = n := by omega
    rw [hlist, parseJNum_not_minus _ hne,
      takeWhile_append_all _ _ _ hdig, dropWhile_append_all _ _ _ hdig, htake, hdrop,
      List.append_nil, parseDigitList_natToChars]
    rcases h with rfl | hh | hh | hh
    · simp only [List.head?_nil]
      rw [habs]
    all_goals
      simp only [hh]
      rw [if_neg (by decide), habs]

/-- Value-mode reduction of the parser at an opening quote. -/
theorem jparse_value_quote (f : ℕ) (cs : List Char) :
    jparse (f + 1) .value ('"' :: cs) =
      (parseJStr (f + 1) cs).map (fun p => (PyVal.vStr p.1, p.2)) := rfl

/-- Value-mode reduction of the parser at an opening bracket. -/
theorem jparse_value_bracket (f : ℕ) (cs : List Char) :
    jparse (f + 1) .value ('[' :: cs) = jparse f .arrayFirst cs := rfl

/-- Value-mode reduction of the parser at an opening brace. -/
theorem jparse_value_brace (f : ℕ) (cs : List Char) :
    jparse (f + 1) .value ('{' :: cs) = jparse f .objFirst cs := rfl

/-- Value-mode reduction of the parser at a minus sign. -/
theorem jparse_value_minus (f : ℕ) (cs : List Char) :
    jparse (f + 1) .value ('-' :: cs) =
      (parseJNum ('-' :: cs)).map (fun p => (PyVal.vInt p.1, p.2)) := rfl

/-- Value-mode reduction of the parser at a head character that opens a
number. -/
theorem jparse_value_other (f : ℕ) (c : Char) (cs : List Char)
    (h1 : ¬(c = ' ' ∨ c = '\t' ∨ c = '\n' ∨ c = '\r'))
    (h2 : c ≠ '"') (h3 : c ≠ '[') (h4 : c ≠ '{') (h5 : c ≠ 't') (h6 : c ≠ 'f')
    (h7 : c ≠ 'n') :
    jparse (f + 1) .value (c :: cs) =
      (parseJNum (c :: cs)).map (fun p => (PyVal.vInt p.1, p.2)) := by
  simp only [jparse]
  rw [skipWs_not_ws c cs h1]
  simp only [if_neg h2, if_neg h3, if_neg h4, if_neg h5, if_neg h6, if_neg h7]

/-- Reduction of the parser at a closing bracket right after the opening
one. -/
theorem jparse_arrayFirst_close (g : ℕ) (rest : List Char) :
    jparse (g + 1) .arrayFirst (']' :: rest) = some (PyVal.vList [], rest) := rfl

/-- Reduction of the parser at a closing bracket after an element. -/
theorem jparse_arrayTail_close (g : ℕ) (rest : List Char) :
    jparse (g + 1) .arrayTail (']' :: rest) = some (PyVal.vList [], rest) := rfl

/-- Reduction of the parser at a closing brace right after the opening
one. -/
theorem jparse_objFirst_close (g : ℕ) (rest : List Char) :
    jparse (g + 1) .objFirst ('}' :: rest) = some (PyVal.vDict [], rest) := rfl

/-- Reduction of the parser at a closing brace after a member. -/
theorem jparse_objTail_close (g : ℕ) (rest : List Char) :
    jparse (g + 1) .objTail ('}' :: rest) = some (PyVal.vDict [], rest) := rfl

/-- Reduction of the parser when an array continues with a comma. -/
theorem jparse_arrayTail_comma (g : ℕ) (cs : List Char) :
    jparse (g + 1) .arrayTail (',' :: cs) =
      match jparse g .value cs with
      | none => none
      | some (v, cs2) =>
        match jparse g .arrayTail cs2 with
        | some (PyVal.vList items, cs3) => some (PyVal.vList (v :: items), cs3)
        | _ => none := rfl

/-- Reduction of the parser at the first element of a nonempty array. -/
theorem jparse_arrayFirst_cons (g : ℕ) (c : Char) (cs : List Char)
    (h1 : ¬(c = ' ' ∨ c = '\t' ∨ c = '\n' ∨ c = '\r')) (h2 : c ≠ ']') :
    jparse (g + 1) .arrayFirst (c :: cs) =
      match jparse g .value (c :: cs) with
      | none => none
      | some (v, cs2) =>
        match jparse g .arrayTail cs2 with
        | some (PyVal.vList items, cs3) => some (PyVal.vList (v :: items), cs3)
        | _ => none := by
  simp only [jparse]
  rw [skipWs_not_ws c cs h1]
  simp only [if_neg h2]

/-- Reduction of the parser at the first member of a nonempty object. -/
theorem jparse_objFirst_quote (g : ℕ) (cs : List Char) :
    jparse (g + 1) .objFirst ('"' :: cs) =
      match parseJStr (g + 1) cs with
      | none => none
      | some (k, cs2) =>
        match skipWs cs2 with
        | [] => none
        | c2 :: cs3 =>
          if c2 = ':' then
            match jparse g .value cs3 with
            | none => none
            | some (v, cs4) =>
              match jparse g .objTail cs4 with
              | some (PyVal.vDict items, cs5) => some (PyVal.vDict ((k, v) :: items), cs5)
              | _ => none
          else none := rfl

/-- Reduction of the parser when an object continues with a comma. -/
theorem jparse_objTail_comma (g : ℕ) (cs : List Char) :
    jparse (g + 1) .objTail (',' :: cs) =
      match skipWs cs with
      | [] => none
      | c1 :: cs2 =>
        if c1 = '"' then
          match parseJStr (g + 1) cs2 with
          | none => none
          | some (k, cs3) =>
            match skipWs cs3 with
            | [] => none
            | c2 :: cs4 =>
              if c2 = ':' then
                match jparse g .value cs4 with
                | none => none
                | some (v, cs5) =>
                  match jparse g .objTail cs5 with
                  | some (PyVal.vDict items, cs6) => some (PyVal.vDict ((k, v) :: items), cs6)
                  | _ => none
              else none
        else none := rfl

/-- A safe scalar prints to a nonempty text whose head is not json
whitespace and closes no container. -/
theorem dumpScalar_head (v : PyVal) (hv : jscalarSafe v = true) :
    ∃ c cs, dumpScalarChars v = c :: cs ∧
      ¬(c = ' ' ∨ c = '\t' ∨ c = '\n' ∨ c = '\r') ∧ c ≠ ']' ∧ c ≠ '}' := by
  cases v with
  | vNone => exact ⟨'n', ['u', 'l', 'l'], rfl, by decide, by decide, by decide⟩
  | vBool b =>
    cases b with
    | false => exact ⟨'f', ['a', 'l', 's', 'e'], rfl, by decide, by decide, by decide⟩
    | true => exact ⟨'t', ['r', 'u', 'e'], rfl, by decide, by decide, by decide⟩
  | vInt n =>
    by_cases hn : n < 0
    · refine ⟨'-', natToCharsAux n.natAbs n.natAbs, ?_, by decide, by decide, by decide⟩
      show (pyIntRepr n).toList = _
      unfold pyIntRepr
      rw [if_pos hn]
      rfl
    · obtain ⟨d, hd, hh0⟩ := natToCharsAux_head n.natAbs n.natAbs
      have hlist : (pyIntRepr n).toList = natToCharsAux n.natAbs n.natAbs := by
        unfold pyIntRepr
        rw [if_neg hn]
        rfl
      cases hc : natToCharsAux n.natAbs n.natAbs with
      | nil => exact absurd hc (natToCharsAux_ne_nil _ _)
      | cons c cs =>
        rw [hc] at hh0
        simp only [List.head?_cons, Option.some.injEq] at hh0
        subst hh0
        refine ⟨digitChar d, cs, ?_, ?_, ?_, ?_⟩
        · show (pyIntRepr n).toList = _
          rw [hlist, hc]
        · interval_cases d <;> decide
        · interval_cases d <;> decide
        · interval_cases d <;> decide
  | vStr s =>
    exact ⟨'"', escapeJChars s.toList ++ ['"'], rfl, by decide, by decide, by decide⟩
  | vList items => simp [jscalarSafe] at hv
  | vDict entries => simp [jscalarSafe] at hv

/-- The value mode of the parser consumes a safe scalar and returns it,
leaving exactly the remainder, when that remainder opens with a
separator (or is empty). -/
theorem jparse_scalar (v : PyVal) (hv : jscalarSafe v = true) (rest : List Char)
    (hrest : rest = [] ∨ rest.head? = some ',' ∨ rest.head? = some ']' ∨ rest.head? = some '}')
    (fuel : ℕ) (hf : (dumpScalarChars v).length + 1 ≤ fuel) :
    jparse fuel .value (dumpScalarChars v ++ rest) = some (v, rest) := by
  cases fuel with
  | zero => exact absurd hf (by omega)
  | succ f =>
    cases v with
    | vNone =>
      show jparse (f + 1) .value ('n' :: 'u' :: 'l' :: 'l' :: rest) = some (.vNone, rest)
      rw [show jparse (f + 1) .value ('n' :: 'u' :: 'l' :: 'l' :: rest) =
        (if ['u', 'l', 'l'].isPrefixOf ('u' :: 'l' :: 'l' :: rest) then
          some (PyVal.vNone, ('u' :: 'l' :: 'l' :: rest).drop 3) else none) from rfl]
      simp [List.isPrefixOf]
    | vBool b =>
      cases b with
      | false =>
        show jparse (f + 1) .value ('f' :: 'a' :: 'l' :: 's' :: 'e' :: rest) =
          some (.vBool false, rest)
        rw [show jparse (f + 1) .value ('f' :: 'a' :: 'l' :: 's' :: 'e' :: rest) =
          (if ['a', 'l', 's', 'e'].isPrefixOf ('a' :: 'l' :: 's' :: 'e' :: rest) then
            some (PyVal.vBool false, ('a' :: 'l' :: 's' :: 'e' :: rest).drop 4) else none)
          from rfl]
        simp [List.isPrefixOf]
      | true =>
        show jparse (f + 1) .value ('t' :: 'r' :: 'u' :: 'e' :: rest) = some (.vBool true, rest)
        rw [show jparse (f + 1) .value ('t' :: 'r' :: 'u' :: 'e' :: rest) =
          (if ['r', 'u', 'e'].isPrefixOf ('r' :: 'u' :: 'e' :: rest) then
            some (PyVal.vBool true, ('r' :: 'u' :: 'e' :: rest).drop 3) else none) from rfl]
        simp [List.isPrefixOf]
    | vInt n =>
      show jparse (f + 1) .value ((pyIntRepr n).toList ++ rest) = some (.vInt n, rest)
      have hnum := parseJNum_pyIntRepr n rest hrest
      by_cases hn : n < 0
      · have hlist : (pyIntRepr n).toList = '-' :: natToCharsAux n.natAbs n.natAbs := by
          unfold pyIntRepr
          rw [if_pos hn]
          rfl
        rw [hlist] at hnum ⊢
        rw [List.cons_append] at hnum ⊢
        rw [jparse_value_minus, hnum]
        rfl
      · have hlist : (pyIntRepr n).toList = natToCharsAux n.natAbs n.natAbs := by
          unfold pyIntRepr
          rw [if_neg hn]
          rfl
        obtain ⟨d, hd, hh0⟩ := natToCharsAux_head n.natAbs n.natAbs
        rw [hlist] at hnum ⊢
        cases hc : natToCharsAux n.natAbs n.natAbs with
        | nil => exact absurd hc (natToCharsAux_ne_nil _ _)
        | cons c cs =>
          rw [hc] at hh0
          simp only [List.head?_cons, Option.some.injEq] at hh0
          subst hh0
          rw [hc, List.cons_append] at hnum
          rw [List.cons_append]
          have hp1 : ¬(digitChar d = ' ' ∨ digitChar d = '\t' ∨ digitChar d = '\n' ∨
              digitChar d = '\r') := by interval_cases d <;> decide
          have hp2 : digitChar d ≠ '"' := by interval_cases d <;> decide
          have hp3 : digitChar d ≠ '[' := by interval_cases d <;> decide
          have hp4 : digitChar d ≠ '{' := by interval_cases d <;> decide
          have hp5 : digitChar d ≠ 't' := by interval_cases d <;> decide
          have hp6 : digitChar d ≠ 'f' := by interval_cases d <;> decide
          have hp7 : digitChar d ≠ 'n' := by interval_cases d <;> decide
          rw [jparse_value_other f _ _ hp1 hp2 hp3 hp4 hp5 hp6 hp7, hnum]
          rfl
    | vStr s =>
      have hsafe : s.toList.all jsonSafeChar = true := hv
      have hesc : escapeJChars s.toList = s.toList := escapeJChars_of_safe _ hsafe
      have hlen2 : (dumpScalarChars (.vStr s)).length = s.toList.length + 2 := by
        show (('"' :: escapeJChars s.toList) ++ ['"']).length = _
        rw [hesc]
        simp
      have hshape : dumpScalarChars (.vStr s) ++ rest = '"' :: (s.toList ++ '"' :: rest) := by
        show (('"' :: escapeJChars s.toList) ++ ['"']) ++ rest = _
        rw [hesc]
        simp
      rw [hshape, jparse_value_quote,
        parseJStr_safe s.toList hsafe rest (f + 1) (by rw [hlen2] at hf; omega)]
      rfl
    | vList items => simp [jscalarSafe] at hv
    | vDict entries => simp [jscalarSafe] at hv

/-- An array tail is never empty (it holds at least the closing
bracket). -/
theorem dumpListTail_len_pos (vs : List PyVal) : 1 ≤ (dumpListTail vs).length := by
  cases vs with
  | nil => decide
  | cons v vs =>
    show 1 ≤ ((',' :: dumpScalarChars v) ++ dumpListTail vs).length
    simp only [List.length_append, List.length_cons]
    omega

/-- An array tail followed by anything opens with a separator. -/
theorem dumpListTail_append_sep (vs : List PyVal) (rest : List Char) :
    (dumpListTail vs ++ rest) = [] ∨ (dumpListTail vs ++ rest).head? = some ',' ∨
    (dumpListTail vs ++ rest).head? = some ']' ∨ (dumpListTail vs ++ rest).head? = some '}' := by
  cases vs with
  | nil =>
    right; right; left
    rfl
  | cons v vs =>
    right; left
    rfl

/-- The array-tail mode parses the printed tail of a list of safe
scalars back into that list. -/
theorem jparse_listTail (items : List PyVal) :
    items.all jscalarSafe = true →
    ∀ (rest : List Char) (fuel : ℕ), (dumpListTail items).length ≤ fuel →
      jparse fuel .arrayTail (dumpListTail items ++ rest) = some (PyVal.vList items, rest) := by
  induction items with
  | nil =>
    intro _ rest fuel hf
    cases fuel with
    | zero => exact absurd hf (by decide)
    | succ g => exact jparse_arrayTail_close g rest
  | cons v vs ih =>
    intro h rest fuel hf
    simp only [List.all_cons, Bool.and_eq_true] at h
    have hpos := dumpListTail_len_pos vs
    have hL : (dumpListTail (v :: vs)).length
        = (dumpScalarChars v).length + (dumpListTail vs).length + 1 := by
      show ((',' :: dumpScalarChars v) ++ dumpListTail vs).length = _
      simp only [List.length_append, List.length_cons]
      omega
    cases fuel with
    | zero => exact absurd hf (by omega)
    | succ g =>
      have h1 : (dumpScalarChars v).length + 1 ≤ g := by omega
      have h2 : (dumpListTail vs).length ≤ g := by omega
      have hsv := jparse_scalar v h.1 (dumpListTail vs ++ rest)
        (dumpListTail_append_sep vs rest) g h1
      have htail := ih h.2 rest g h2
      have hshape : dumpListTail (v :: vs) ++ rest
          = ',' :: (dumpScalarChars v ++ (dumpListTail vs ++ rest)) := by
        show ((',' :: dumpScalarChars v) ++ dumpListTail vs) ++ rest = _
        simp
      rw [hshape, jparse_arrayTail_comma]
      simp only [hsv, htail]

/-- The array-first mode parses the printed body of a list of safe
scalars back into that list. -/
theorem jparse_listStart (items : List PyVal) (h : items.all jscalarSafe = true)
    (rest : List Char) (fuel : ℕ) (hf : (dumpListBody items).length + 1 ≤ fuel) :
    jparse fuel .arrayFirst (dumpListBody items ++ rest) = some (PyVal.vList items, rest) := by
  cases fuel with
  | zero => exact absurd hf (by omega)
  | succ g =>
    cases items with
    | nil => exact jparse_arrayFirst_close g rest
    | cons v vs =>
      simp only [List.all_cons, Bool.and_eq_true] at h
      obtain ⟨c, cs, hc, hw, hne, -⟩ := dumpScalar_head v h.1
      have hpos := dumpListTail_len_pos vs
      have hL : (dumpListBody (v :: vs)).length
          = (dumpScalarChars v).length + (dumpListTail vs).length := by
        show (dumpScalarChars v ++ dumpListTail vs).length = _
        simp
      have h1 : (dumpScalarChars v).length + 1 ≤ g := by omega
      have h2 : (dumpListTail vs).length ≤ g := by omega
      have hsv := jparse_scalar v h.1 (dumpListTail vs ++ rest)
        (dumpListTail_append_sep vs rest) g h1
      have htail := jparse_listTail vs h.2 rest g h2
      rw [hc, List.cons_append] at hsv
      have hshape : dumpListBody (v :: vs) ++ rest = c :: (cs ++ (dumpListTail vs ++ rest)) := by
        show (dumpScalarChars v ++ dumpListTail vs) ++ rest = _
        rw [hc]
        simp
      rw [hshape, jparse_arrayFirst_cons g c _ hw hne]
      simp only [hsv, htail]

/-- json.loads recovers a list of safe scalars from its compact JSON. -/
theorem jsonParse_list (items : List PyVal) (h : items.all jscalarSafe = true) :
    jsonParse ⟨'[' :: dumpListBody items⟩ = some (PyVal.vList items) := by
  unfold jsonParse
  have hlen : (String.mk ('[' :: dumpListBody items)).length
      = (dumpListBody items).length + 1 := by
    show ('[' :: dumpListBody items).length = _
    simp
  obtain ⟨G, hG⟩ : ∃ G, 2 * (String.mk ('[' :: dumpListBody items)).length + 4 = G + 1 :=
    ⟨2 * (String.mk ('[' :: dumpListBody items)).length + 3, by omega⟩
  rw [hG,
    show (String.mk ('[' :: dumpListBody items)).toList = '[' :: dumpListBody items from rfl,
    jparse_value_bracket]
  have hstart := jparse_listStart items h [] G (by omega)
  rw [List.append_nil] at hstart
  rw [hstart]
  rfl

/-- The tag-decode step recovers a list of safe scalars from the compact
JSON the encode step emitted for it. -/
theorem parseRaw_list (items : List PyVal) (h : items.all jscalarSafe = true) :
    parseRaw (encodeTagValue (PyVal.vList items)) = PyVal.vList items := by
  rw [show encodeTagValue (PyVal.vList items) = ⟨'[' :: dumpListBody items⟩ from rfl]
  have hne : String.mk ('[' :: dumpListBody items) ≠ "" := by
    intro he
    have h2 := congrArg String.toList he
    simp at h2
  unfold parseRaw
  rw [if_pos ⟨hne, Or.inr rfl⟩]
  simp only [jsonParse_list items h]

/-- An object tail is never empty (it holds at least the closing
brace). -/
theorem dumpDictTail_len_pos (es : List (String × PyVal)) : 1 ≤ (dumpDictTail es).length := by
  cases es with
  | nil => decide
  | cons e es =>
    show 1 ≤ ((',' :: dumpEntry e) ++ dumpDictTail es).length
    simp only [List.length_append, List.length_cons]
    omega

/-- An object tail followed by anything opens with a separator. -/
theorem dumpDictTail_append_sep (es : List (String × PyVal)) (rest : List Char) :
    (dumpDictTail es ++ rest) = [] ∨ (dumpDictTail es ++ rest).head? = some ',' ∨
    (dumpDictTail es ++ rest).head? = some ']' ∨ (dumpDictTail es ++ rest).head? = some '}' := by
  cases es with
  | nil =>
    right; right; right
    rfl
  | cons e es =>
    right; left
    rfl

/-- Parsing one printed `"key":value` member (the opening quote already
consumed) and then the rest of the object recovers the member list. -/
theorem jparse_entry_core (g : ℕ) (k : String) (hk : k.toList.all jsonSafeChar = true)
    (v : PyVal) (hv : jscalarSafe v = true) (X : List Char)
    (hsep : X = [] ∨ X.head? = some ',' ∨ X.head? = some ']' ∨ X.head? = some '}')
    (items : List (String × PyVal)) (cs5 : List Char)
    (hkf : k.toList.length + 1 ≤ g + 1)
    (hvf : (dumpScalarChars v).length + 1 ≤ g)
    (htail : jparse g .objTail X = some (PyVal.vDict items, cs5)) :
    (match parseJStr (g + 1) (k.toList ++ '"' :: ':' :: (dumpScalarChars v ++ X)) with
      | none => none
      | some (kk, cs2) =>
        match skipWs cs2 with
        | [] => none
        | c2 :: cs3 =>
          if c2 = ':' then
            match jparse g .value cs3 with
            | none => none
            | some (vv, cs4) =>
              match jparse g .objTail cs4 with
              | some (PyVal.vDict its, cs6) => some (PyVal.vDict ((kk, vv) :: its), cs6)
              | _ => none
          else none) = some (PyVal.vDict ((k, v) :: items), cs5) := by
  have hstr := parseJStr_safe k.toList hk (':' :: (dumpScalarChars v ++ X)) (g + 1) hkf
  have hmk : (String.mk k.toList) = k := rfl
  have hval := jparse_scalar v hv X hsep g hvf
  simp only [hstr, hmk]
  rw [skipWs_not_ws ':' _ (by decide)]
  simp only [eq_self_iff_true, if_true, hval, htail]

/-- The object-tail mode parses the printed tail of a dict of safe keys
and scalars back into that dict. -/
theorem jparse_dictTail (es : List (String × PyVal)) :
    es.all (fun e => e.1.toList.all jsonSafeChar && jscalarSafe e.2) = true →
    ∀ (rest : List Char) (fuel : ℕ), (dumpDictTail es).length ≤ fuel →
      jparse fuel .objTail (dumpDictTail es ++ rest) = some (PyVal.vDict es, rest) := by
  induction es with
  | nil =>
    intro _ rest fuel hf
    cases fuel with
    | zero => exact absurd hf (by decide)
    | succ g => exact jparse_objTail_close g rest
  | cons e es ih =>
    obtain ⟨k, v⟩ := e
    intro h rest fuel hf
    simp only [List.all_cons, Bool.and_eq_true] at h
    have hE : (dumpEntry (k, v)).length
        = k.toList.length + (dumpScalarChars v).length + 3 := by
      show (('"' :: escapeJChars k.toList) ++ ('"' :: ':' :: dumpScalarChars v)).length = _
      rw [escapeJChars_of_safe _ h.1.1]
      simp only [List.length_append, List.length_cons]
      omega
    have hpos := dumpDictTail_len_pos es
    have hL : (dumpDictTail ((k, v) :: es)).length
        = (dumpEntry (k, v)).length + (dumpDictTail es).length + 1 := by
      show ((',' :: dumpEntry (k, v)) ++ dumpDictTail es).length = _
      simp only [List.length_append, List.length_cons]
      omega
    cases fuel with
    | zero => exact absurd hf (by omega)
    | succ g =>
      have htail := ih h.2 rest g (by omega)
      have hshape : dumpDictTail ((k, v) :: es) ++ rest
          = ',' :: ('"' ::
            (k.toList ++ '"' :: ':' :: (dumpScalarChars v ++ (dumpDictTail es ++ rest)))) := by
        show ((',' :: dumpEntry (k, v)) ++ dumpDictTail es) ++ rest = _
        rw [show dumpEntry (k, v)
            = ('"' :: escapeJChars k.toList) ++ ('"' :: ':' :: dumpScalarChars v) from rfl,
          escapeJChars_of_safe _ h.1.1]
        simp
      rw [hshape, jparse_objTail_comma, skipWs_not_ws '"' _ (by decide)]
      simp only [eq_self_iff_true, if_true]
      exact jparse_entry_core g k h.1.1 v h.1.2 (dumpDictTail es ++ rest)
        (dumpDictTail_append_sep es rest) es rest (by omega) (by omega) htail

/-- The object-first mode parses the printed body of a dict of safe keys
and scalars back into that dict. -/
theorem jparse_dictStart (es : List (String × PyVal))
    (h : es.all (fun e => e.1.toList.all jsonSafeChar && jscalarSafe e.2) = true)
    (rest : List Char) (fuel : ℕ) (hf : (dumpDictBody es).length + 1 ≤ fuel) :
    jparse fuel .objFirst (dumpDictBody es ++ rest) = some (PyVal.vDict es, rest) := by
  cases fuel with
  | zero => exact absurd hf (by omega)
  | succ g =>
    cases es with
    | nil => exact jparse_objFirst_close g rest
    | cons e es =>
      obtain ⟨k, v⟩ := e
      simp only [List.all_cons, Bool.and_eq_true] at h
      have hE : (dumpEntry (k, v)).length
          = k.toList.length + (dumpScalarChars v).length + 3 := by
        show (('"' :: escapeJChars k.toList) ++ ('"' :: ':' :: dumpScalarChars v)).length = _
        rw [escapeJChars_of_safe _ h.1.1]
        simp only [List.length_append, List.length_cons]
        omega
      have hpos := dumpDictTail_len_pos es
      have hL : (dumpDictBody ((k, v) :: es)).length
          = (dumpEntry (k, v)).length + (dumpDictTail es).length := by
        show (dumpEntry (k, v) ++ dumpDictTail es).length = _
        simp only [List.length_append]
      have htail := jparse_dictTail es h.2 rest g (by omega)
      have hshape : dumpDictBody ((k, v) :: es) ++ rest
          = '"' :: (k.toList ++ '"' :: ':' :: (dumpScalarChars v ++ (dumpDictTail es ++ rest))) := by
        show (dumpEntry (k, v) ++ dumpDictTail es) ++ rest = _
        rw [show dumpEntry (k, v)
            = ('"' :: escapeJChars k.toList) ++ ('"' :: ':' :: dumpScalarChars v) from rfl,
          escapeJChars_of_safe _ h.1.1]
        simp
      rw [hshape, jparse_objFirst_quote]
      exact jparse_entry_core g k h.1.1 v h.1.2 (dumpDictTail es ++ rest)
        (dumpDictTail_append_sep es rest) es rest (by omega) (by omega) htail

/-- json.loads recovers a dict of safe keys and scalars from its compact
JSON. -/
theorem jsonParse_dict (es : List (String × PyVal))
    (h : es.all (fun e => e.1.toList.all jsonSafeChar && jscalarSafe e.2) = true) :
    jsonParse ⟨'{' :: dumpDictBody es⟩ = some (PyVal.vDict es) := by
  unfold jsonParse
  have hlen : (String.mk ('{' :: dumpDictBody es)).length
      = (dumpDictBody es).length + 1 := by
    show ('{' :: dumpDictBody es).length = _
    simp
  obtain ⟨G, hG⟩ : ∃ G, 2 * (String.mk ('{' :: dumpDictBody es)).length + 4 = G + 1 :=
    ⟨2 * (String.mk ('{' :: dumpDictBody es)).length + 3, by omega⟩
  rw [hG,
    show (String.mk ('{' :: dumpDictBody es)).toList = '{' :: dumpDictBody es from rfl,
    jparse_value_brace]
  have hstart := jparse_dictStart es h [] G (by omega)
  rw [List.append_nil] at hstart
  rw [hstart]
  rfl

/-- The tag-decode step recovers a dict of safe keys and scalars from
the compact JSON the encode step emitted for it. -/
theorem parseRaw_dict (es : List (String × PyVal))
    (h : es.all (fun e => e.1.toList.all jsonSafeChar && jscalarSafe e.2) = true) :
    parseRaw (encodeTagValue (PyVal.vDict es)) = PyVal.vDict es := by
  rw [show encodeTagValue (PyVal.vDict es) = ⟨'{' :: dumpDictBody es⟩ from rfl]
  have hne : String.mk ('{' :: dumpDictBody es) ≠ "" := by
    intro he
    have h2 := congrArg String.toList he
    simp at h2
  unfold parseRaw
  rw [if_pos ⟨hne, Or.inl rfl⟩]
  simp only [jsonParse_dict es h]

/-- C5 (counterexample): a model value whose `token` string is the
literal "null" does not round-trip: the decoder turns the encoded "null"
back into `None`, so decode(encode(x)) differs from x. -/
theorem C5_counterexample :
    orderFromTags s1_order (orderDumpTags c5_null_order) =
      some { c5_null_order with token := none } ∧
    ({ c5_null_order with token := none } : Order) ≠ c5_null_order := by
  exact ⟨by decide, by decide⟩

/-- C5 (amended): the tagged-event codec round-trips with the stated
per-field encoding rules, on scalar fields and on flat containers of
JSON scalars.  On the tagged models embedded here (`Order`: strings,
ints, bools, optional strings; `OrderErrorResponse`: IntEnum and
optional string) `model_from_tags (model_dump_tags x) = x`, PROVIDED
every string value is neither the literal "null" nor a string opening a
JSON container; without that proviso the round trip fails (see the
counterexample).  For a container field the encode step emits compact
JSON and the decode step `json.loads`-parses it back: a list or dict
whose elements are JSON scalars (None, bool, int, or a string of
characters the json escape passes through) decodes to exactly itself (a
tuple is emitted as a JSON array, so it comes back as the corresponding
list). -/
theorem C5_codec_roundtrip :
    (∀ (defaults o : Order),
      goodRaw o.d → goodRaw o.target_pubkey_uri →
      (∀ s, o.token = some s → goodRaw s) →
      (∀ s, o.refund_onchain_address = some s → goodRaw s) →
      orderFromTags defaults (orderDumpTags o) = some o) ∧
    (∀ e : OrderErrorResponse,
      (∀ s, e.error_message = some s → goodRaw s) →
      errorRespFromTags (errorRespDumpTags e) = some e) ∧
    (∀ items : List PyVal, items.all jscalarSafe = true →
      parseRaw (encodeTagValue (PyVal.vList items)) = PyVal.vList items) ∧
    (∀ entries : List (String × PyVal),
      entries.all (fun e => e.1.toList.all jsonSafeChar && jscalarSafe e.2) = true →
      parseRaw (encodeTagValue (PyVal.vDict entries)) = PyVal.vDict entries) := by
  refine ⟨?_, ?_, fun items hi => parseRaw_list items hi,
    fun entries he => parseRaw_dict entries he⟩
  · intro defaults o h1 h2 h3 h4
    unfold orderFromTags
    rw [show fieldReq (orderDumpTags o) "d" coerceStr = coerceStr (parseRaw o.d) from rfl,
        show fieldOptD (orderDumpTags o) "target_pubkey_uri" defaults.target_pubkey_uri
            coerceStr = coerceStr (parseRaw o.target_pubkey_uri) from rfl,
        show fieldOptD (orderDumpTags o) "lsp_balance_sat" defaults.lsp_balance_sat coerceInt =
            coerceInt (parseRaw (pyIntRepr o.lsp_balance_sat)) from rfl,
        show fieldOptD (orderDumpTags o) "client_balance_sat" defaults.client_balance_sat
            coerceInt = coerceInt (parseRaw (pyIntRepr o.client_balance_sat)) from rfl,
        show fieldOptD (orderDumpTags o) "required_channel_confirmations"
            defaults.required_channel_confirmations coerceInt =
            coerceInt (parseRaw (pyIntRepr o.required_channel_confirmations)) from rfl,
        show fieldOptD (orderDumpTags o) "funding_confirms_within_blocks"
            defaults.funding_confirms_within_blocks coerceInt =
            coerceInt (parseRaw (pyIntRepr o.funding_confirms_within_blocks)) from rfl,
        show fieldOptD (orderDumpTags o) "channel_expiry_blocks" defaults.channel_expiry_blocks
            coerceInt = coerceInt (parseRaw (pyIntRepr o.channel_expiry_blocks)) from rfl,
        show fieldOptD (orderDumpTags o) "token" defaults.token coerceOptStr =
            coerceOptStr (parseRaw (dumpOptStr o.token)) from rfl,
        show fieldOptD (orderDumpTags o) "refund_onchain_address"
            defaults.refund_onchain_address coerceOptStr =
            coerceOptStr (parseRaw (dumpOptStr o.refund_onchain_address)) from rfl,
        show fieldOptD (orderDumpTags o) "announce_channel" defaults.announce_channel
            coerceBool =
            coerceBool (parseRaw (if o.announce_channel then "True" else "False")) from rfl,
        coerceStr_roundtrip o.d h1, coerceStr_roundtrip o.target_pubkey_uri h2,
        coerceInt_roundtrip, coerceInt_roundtrip, coerceInt_roundtrip, coerceInt_roundtrip,
        coerceInt_roundtrip, coerceOptStr_roundtrip o.token h3,
        coerceOptStr_roundtrip o.refund_onchain_address h4,
        coerceBool_roundtrip o.announce_channel]
    rfl
  · intro e h
    unfold errorRespFromTags
    rw [show fieldReq (errorRespDumpTags e) "code" coerceErrorCode =
          coerceErrorCode (parseRaw (pyIntRepr e.code.value)) from rfl,
        show fieldOptD (errorRespDumpTags e) "error_message" none coerceOptStr =
          coerceOptStr (parseRaw (dumpOptStr e.error_message)) from rfl,
        coerceErrorCode_roundtrip e.code, coerceOptStr_roundtrip e.error_message h]
    rfl

/-- C5 (witness): the S1 order and a concrete error response round-trip
through the codec, and a concrete list and dict of JSON scalars
round-trip through the per-value container rule. -/
theorem C5_codec_roundtrip_witness :
    orderFromTags s1_order (orderDumpTags s1_order) = some s1_order ∧
    errorRespFromTags (errorRespDumpTags
        { code := .invalid_params, error_message := some buyer_msg }) =
      some { code := .invalid_params, error_message := some buyer_msg } ∧
    parseRaw (encodeTagValue (PyVal.vList
        [PyVal.vInt 5000000, PyVal.vStr "lnbc", PyVal.vNone, PyVal.vBool true])) =
      PyVal.vList [PyVal.vInt 5000000, PyVal.vStr "lnbc", PyVal.vNone, PyVal.vBool true] ∧
    parseRaw (encodeTagValue (PyVal.vDict
        [("lsp_balance_sat", PyVal.vInt 5000000), ("token", PyVal.vNone)])) =
      PyVal.vDict [("lsp_balance_sat", PyVal.vInt 5000000), ("token", PyVal.vNone)] := by
  refine ⟨?_, ?_, ?_, ?_⟩
  · refine C5_codec_roundtrip.1 s1_order s1_order (by decide) (by decide) ?_ ?_
    · intro s hs
      rw [show s1_order.token = some "" from rfl] at hs
      cases hs
      decide
    · intro s hs
      rw [show s1_order.refund_onchain_address = none from rfl] at hs
      cases hs
  · refine C5_codec_roundtrip.2.1 _ ?_
    intro s hs
    cases hs
    decide
  · exact C5_codec_roundtrip.2.2.1 _ (by decide)
  · exact C5_codec_roundtrip.2.2.2 _ (by decide)
